import Mathlib

/-!
Verification of the narrative resolution engine of the `text-novel-game`
repository: a shallow embedding, in Lean 4, of the story-script parser and
the runtime state machine (roll resolution, condition evaluation, stat and
inventory effects, journal, snapshot restore), together with theorems that
settle the specification claims against the embedded code.

JavaScript objects used as string-keyed dictionaries are embedded as
association lists `List (String × Int)`; object property update keeps the
key position (as JS property order does), property creation appends, and
`delete` removes the key.  JavaScript numbers that the claims exercise are
embedded as `Int` (all authored quantities are integers); the spots where
the source checks `Number.isFinite` on an arbitrary incoming value are
embedded with `Option Int` (`none` plays the role of a non-finite result of
`Number(...)`).  `Math.random()` is embedded as an injected sequence of
rationals in `[0,1)`, matching the source's injectable `randomSource`.
-/

/-- Look up a key in an association list (JS property read, absent ↦ `none`). -/
def alookup (m : List (String × Int)) (k : String) : Option Int :=
  match m with
  | [] => none
  | p :: rest => if p.1 = k then some p.2 else alookup rest k

/-- JS property write: overwrite in place when the key exists, append otherwise. -/
def aset (m : List (String × Int)) (k : String) (v : Int) : List (String × Int) :=
  match m with
  | [] => [(k, v)]
  | p :: rest => if p.1 = k then (k, v) :: rest else p :: aset rest k v

/-- JS `delete obj[k]`: remove the key. -/
def aerase (m : List (String × Int)) (k : String) : List (String × Int) :=
  m.filter (fun p => p.1 ≠ k)

theorem alookup_aset_ne (m : List (String × Int)) (k j : String) (v : Int)
    (h : j ≠ k) : alookup (aset m k v) j = alookup m j := by
  induction m with
  | nil =>
      simp only [aset, alookup]
      exact if_neg (fun hkj => h hkj.symm)
  | cons p rest ih =>
      by_cases hp : p.1 = k
      · simp [aset, hp, alookup, Ne.symm h, ih]
      · rw [show aset (p :: rest) k v = p :: aset rest k v from by simp [aset, hp]]
        by_cases hj : p.1 = j <;> simp [alookup, hj, ih]

theorem alookup_aerase (m : List (String × Int)) (k : String) :
    alookup (aerase m k) k = none := by
  induction m with
  | nil => simp [aerase, alookup]
  | cons p rest ih =>
      by_cases hp : p.1 = k
      · simpa [aerase, hp] using ih
      · simpa [aerase, alookup, hp] using ih

theorem mem_aset (m : List (String × Int)) (k : String) (v : Int) (q : String × Int)
    (h : q ∈ aset m k v) : q = (k, v) ∨ q ∈ m := by
  induction m with
  | nil => simpa [aset] using h
  | cons p rest ih =>
      by_cases hp : p.1 = k
      · rcases (by simpa [aset, hp] using h) with h1 | h1
        · exact Or.inl h1
        · exact Or.inr (List.mem_cons_of_mem _ h1)
      · rcases (by simpa [aset, hp] using h) with h1 | h1
        · exact Or.inr (by simp [h1])
        · rcases ih h1 with h2 | h2
          · exact Or.inl h2
          · exact Or.inr (List.mem_cons_of_mem _ h2)

theorem mem_aerase (m : List (String × Int)) (k : String) (q : String × Int)
    (h : q ∈ aerase m k) : q ∈ m := by
  exact List.mem_of_mem_filter h

theorem keys_aset_of_mem (m : List (String × Int)) (k : String) (v : Int)
    (h : k ∈ m.map Prod.fst) :
    (aset m k v).map Prod.fst = m.map Prod.fst := by
  induction m with
  | nil => simp at h
  | cons p rest ih =>
      by_cases hp : p.1 = k
      · simp [aset, hp]
      · have hk : k ∈ rest.map Prod.fst := by
          rcases (by simpa using h) with h1 | h1
          · exact absurd h1.symm hp
          · simpa using h1
        simp [aset, hp, ih hk]

/-! ## Roll resolver — `src/js/rollSystem.js`

`runRoll(directive, getStatValue, randomSource)` rolls `dice.count`
integers via `randomInt(1, dice.sides)`, sums them, adds the stat value
(`0` when no stat is configured) and compares against the target. -/

structure RollDirective where
  stat : Option String
  diceCount : Int
  diceSides : Int
  target : Int
  ok : String
  fail : String
deriving Repr, DecidableEq

structure RollResult where
  directive : RollDirective
  statValue : Int
  rolls : List Int
  diceTotal : Int
  total : Int
  success : Bool
deriving Repr, DecidableEq

/-- `randomInt(min, max, randomSource)` = `Math.floor(r * (max - min + 1)) + min`. -/
def randomInt (min max : Int) (r : ℚ) : Int :=
  Int.floor (r * ((max : ℚ) - (min : ℚ) + 1)) + min

/-- Embedding of `runRoll` (`src/js/rollSystem.js`, lines 8–31); the JS
`randomSource` (called once per die) is embedded as the sequence `rs`. -/
def runRoll (directive : RollDirective) (getStatValue : String → Int)
    (rs : Nat → ℚ) : RollResult :=
  let statValue : Int :=
    match directive.stat with
    | some s => getStatValue s
    | none => 0
  let rolls : List Int :=
    (List.range directive.diceCount.toNat).map
      (fun i => randomInt 1 directive.diceSides (rs i))
  let diceTotal : Int := rolls.sum
  let total : Int := statValue + diceTotal
  { directive := directive
    statValue := statValue
    rolls := rolls
    diceTotal := diceTotal
    total := total
    success := decide (total ≥ directive.target) }

theorem randomInt_one_bounds (s : Int) (r : ℚ) (hs : 1 ≤ s) (h0 : 0 ≤ r)
    (h1 : r < 1) : 1 ≤ randomInt 1 s r ∧ randomInt 1 s r ≤ s := by
  have hsq : (1 : ℚ) ≤ (s : ℚ) := by exact_mod_cast hs
  have harg : r * ((s : ℚ) - ((1 : Int) : ℚ) + 1) = r * (s : ℚ) := by push_cast; ring
  have hge : (0 : Int) ≤ Int.floor (r * (s : ℚ)) :=
    Int.le_floor.mpr (by simpa using mul_nonneg h0 (by linarith))
  have hlt : Int.floor (r * (s : ℚ)) < s := by
    apply Int.floor_lt.mpr
    calc r * (s : ℚ) < 1 * (s : ℚ) := mul_lt_mul_of_pos_right h1 (by linarith)
      _ = (s : ℚ) := one_mul _
  unfold randomInt
  rw [harg]
  omega

/-- C3: for `dice.count ≥ 1`, `dice.sides ≥ 1` and a random source with
values in `[0,1)`, `runRoll` makes exactly `dice.count` rolls, each in
`[1, dice.sides]`; `diceTotal` is their sum; `total = statValue + diceTotal`
with `statValue = 0` when no stat is configured; `success ↔ total ≥ target`. -/
theorem runRoll_spec (directive : RollDirective) (getStatValue : String → Int)
    (rs : Nat → ℚ) (hcount : 1 ≤ directive.diceCount)
    (hsides : 1 ≤ directive.diceSides)
    (hrs : ∀ i, 0 ≤ rs i ∧ rs i < 1) :
    ((runRoll directive getStatValue rs).rolls.length : Int) = directive.diceCount ∧
    (∀ r ∈ (runRoll directive getStatValue rs).rolls,
        1 ≤ r ∧ r ≤ directive.diceSides) ∧
    (runRoll directive getStatValue rs).diceTotal
      = (runRoll directive getStatValue rs).rolls.sum ∧
    (runRoll directive getStatValue rs).total
      = (runRoll directive getStatValue rs).statValue
        + (runRoll directive getStatValue rs).diceTotal ∧
    (directive.stat = none → (runRoll directive getStatValue rs).statValue = 0) ∧
    ((runRoll directive getStatValue rs).success = true ↔
      (runRoll directive getStatValue rs).total ≥ directive.target) := by
  refine ⟨?_, ?_, ?_, ?_, ?_, ?_⟩
  · simp [runRoll]
    omega
  · intro r hr
    simp only [runRoll, List.mem_map, List.mem_range] at hr
    obtain ⟨i, _, hi⟩ := hr
    subst hi
    exact randomInt_one_bounds directive.diceSides (rs i) hsides (hrs i).1 (hrs i).2
  · rfl
  · rfl
  · intro h
    simp [runRoll, h]
  · simp [runRoll]

/-- Concrete check of `runRoll_spec`: one d6 with the constant random source
`1/2` on a directive with no stat; every hypothesis is discharged at this
input. -/
theorem runRoll_spec_witness :
    (∀ r ∈ (runRoll ⟨none, 1, 6, 4, "W", "L"⟩ (fun _ => 0) (fun _ => (1 : ℚ)/2)).rolls,
        1 ≤ r ∧ r ≤ 6) ∧
    ((runRoll ⟨none, 1, 6, 4, "W", "L"⟩ (fun _ => 0) (fun _ => (1 : ℚ)/2)).statValue = 0) := by
  have h := runRoll_spec ⟨none, 1, 6, 4, "W", "L"⟩ (fun _ => 0) (fun _ => (1 : ℚ)/2)
    (by norm_num) (by norm_num) (fun i => by norm_num)
  exact ⟨h.2.1, h.2.2.2.2.1 rfl⟩

/-! ## Character-level string operations

The JS string methods the engine relies on (`trim`, `toLowerCase`,
`split`, `startsWith`, `endsWith`, `indexOf`) are embedded as structural
functions over the character list of a `String`, so that every definition
in this file evaluates inside the kernel.  `trim` strips ASCII whitespace
and `toLowerCase` lowers ASCII letters, which covers the identifiers the
script grammar produces. -/

def charTrim (l : List Char) : List Char :=
  ((l.dropWhile Char.isWhitespace).reverse.dropWhile Char.isWhitespace).reverse

/-- JS `s.trim()`. -/
def strTrim (s : String) : String := String.mk (charTrim s.data)

/-- JS `s.toLowerCase()`. -/
def strToLower (s : String) : String := String.mk (s.data.map Char.toLower)

/-- JS `s.startsWith(pre)`. -/
def strStartsWith (s pre : String) : Bool := pre.data.isPrefixOf s.data

def splitOnCharAux (c : Char) : List Char → List Char → List (List Char)
  | [], acc => [acc.reverse]
  | x :: rest, acc =>
      if x = c then acc.reverse :: splitOnCharAux c rest []
      else splitOnCharAux c rest (x :: acc)

/-- JS `s.split(c)` for a single-character separator. -/
def strSplitOnChar (c : Char) (s : String) : List String :=
  (splitOnCharAux c s.data []).map String.mk

/-- JS `s.indexOf(c)`-then-slice: the text before and after the first
occurrence of `c`, or `none` when `indexOf` returns `-1`. -/
def strSplitFirst (s : String) (c : Char) : Option (String × String) :=
  let pre := s.data.takeWhile (fun x => x ≠ c)
  if pre.length = s.data.length then none
  else some (String.mk pre, String.mk (s.data.drop (pre.length + 1)))

/-! ## Visit tracker and inventory membership —
`src/js/state/visitTracker.js` (unnamed part) and
`src/js/state/inventoryManager.js` -/

/-- `markVisited(visited, branchId)`: add the trimmed id when nonempty. -/
def markVisited (visited : List String) (branchId : String) : List String :=
  let id := strTrim branchId
  if id = "" then visited
  else if visited.contains id then visited else visited ++ [id]

/-- `hasVisited(visited, branchId)`: trimmed membership, blank ids never match. -/
def hasVisited (visited : List String) (branchId : String) : Bool :=
  let id := strTrim branchId
  if id = "" then false else visited.contains id

/-- `hasInventoryItem(inventory, itemName)`: the trimmed key must be present
with a (finite) count strictly greater than `0`. -/
def hasInventoryItem (inventory : List (String × Int)) (itemName : String) : Bool :=
  let key := strTrim itemName
  if key = "" then false else decide (0 < (alookup inventory key).getD 0)

/-! ## Condition evaluator — `src/js/state/conditionEvaluator.js` -/

inductive ConditionKind where
  | visitedAll
  | visitedAny
  | visitedNone
  | inventoryAll
  | inventoryAny
deriving Repr, DecidableEq

structure Cond where
  kind : ConditionKind
  values : List String
  raw : String
deriving Repr, DecidableEq

/-- The evaluator's cleaning of `condition.values`: trim entries, drop blanks. -/
def cleanedValues (values : List String) : List String :=
  (values.map strTrim).filter (fun v => v ≠ "")

/-- Embedding of `evaluateCondition` (`src/js/state/conditionEvaluator.js`,
lines 10–37): a pure function of the condition, the visited set and the
inventory map. -/
def evaluateCondition (condition : Option Cond) (visited : List String)
    (inventory : List (String × Int)) : Bool :=
  match condition with
  | none => true
  | some c =>
      let values := cleanedValues c.values
      if values.isEmpty then false
      else
        match c.kind with
        | .visitedAll => values.all (fun id => hasVisited visited id)
        | .visitedAny => values.any (fun id => hasVisited visited id)
        | .visitedNone => values.all (fun id => !hasVisited visited id)
        | .inventoryAll => values.all (fun item => hasInventoryItem inventory item)
        | .inventoryAny => values.any (fun item => hasInventoryItem inventory item)

/-- C5: the evaluator is a pure function of `(condition, visited, inventory)`;
a `null` condition is always satisfied; an empty cleaned value list fails
closed; the five kinds are the advertised all/any/none predicates over the
cleaned values. -/
theorem evaluateCondition_spec (visited : List String)
    (inventory : List (String × Int)) :
    evaluateCondition none visited inventory = true ∧
    (∀ c : Cond, cleanedValues c.values = [] →
        evaluateCondition (some c) visited inventory = false) ∧
    (∀ c : Cond, c.kind = ConditionKind.visitedAll →
        (evaluateCondition (some c) visited inventory = true ↔
          cleanedValues c.values ≠ [] ∧
            ∀ v ∈ cleanedValues c.values, hasVisited visited v = true)) ∧
    (∀ c : Cond, c.kind = ConditionKind.visitedAny →
        (evaluateCondition (some c) visited inventory = true ↔
          ∃ v ∈ cleanedValues c.values, hasVisited visited v = true)) ∧
    (∀ c : Cond, c.kind = ConditionKind.visitedNone →
        (evaluateCondition (some c) visited inventory = true ↔
          cleanedValues c.values ≠ [] ∧
            ∀ v ∈ cleanedValues c.values, hasVisited visited v = false)) ∧
    (∀ c : Cond, c.kind = ConditionKind.inventoryAll →
        (evaluateCondition (some c) visited inventory = true ↔
          cleanedValues c.values ≠ [] ∧
            ∀ v ∈ cleanedValues c.values, hasInventoryItem inventory v = true)) ∧
    (∀ c : Cond, c.kind = ConditionKind.inventoryAny →
        (evaluateCondition (some c) visited inventory = true ↔
          ∃ v ∈ cleanedValues c.values, hasInventoryItem inventory v = true)) := by
  refine ⟨rfl, ?_, ?_, ?_, ?_, ?_, ?_⟩
  · intro c hc
    simp [evaluateCondition, hc]
  · intro c hk
    by_cases hc : cleanedValues c.values = []
    · simp [evaluateCondition, hc]
    · simp [evaluateCondition, hk, hc, List.all_eq_true]
  · intro c hk
    by_cases hc : cleanedValues c.values = []
    · simp [evaluateCondition, hc]
    · simp [evaluateCondition, hk, hc, List.any_eq_true]
  · intro c hk
    by_cases hc : cleanedValues c.values = []
    · simp [evaluateCondition, hc]
    · simp [evaluateCondition, hk, hc, List.all_eq_true]
  · intro c hk
    by_cases hc : cleanedValues c.values = []
    · simp [evaluateCondition, hc]
    · simp [evaluateCondition, hk, hc, List.all_eq_true]
  · intro c hk
    by_cases hc : cleanedValues c.values = []
    · simp [evaluateCondition, hc]
    · simp [evaluateCondition, hk, hc, List.any_eq_true]

/-- Concrete check of `evaluateCondition_spec`: a `visited-all` condition with
a blank extra entry holds on a state that visited the one real entry, and an
all-blank value list fails closed. -/
theorem evaluateCondition_spec_witness :
    evaluateCondition (some ⟨ConditionKind.visitedAll, ["a", " "], "visited(a)"⟩)
      ["a"] [] = true ∧
    evaluateCondition (some ⟨ConditionKind.visitedAny, [" "], "visitedAny( )"⟩)
      ["a"] [] = false := by
  constructor
  · exact ((evaluateCondition_spec ["a"] []).2.2.1 _ rfl).mpr (by decide)
  · exact (evaluateCondition_spec ["a"] []).2.1 _ (by decide)

/-! ## Condition sub-parser — `src/js/parser/conditionParser.js`

`parseCondition(raw, lineNumber, directive)` matches the trimmed value
against `^([a-z][\w-]*)\s*\((.*)\)$` (case-insensitive), splits the
argument section on commas, requires at least one argument, and resolves
the lowercased keyword through a fixed synonym table.  The regex match is
embedded structurally: the keyword is the text before the first `(`
(with trailing whitespace stripped and its shape validated), and the
argument section is everything up to a final `)`. -/

def isKeywordTailChar (c : Char) : Bool := c.isAlphanum || c = '_' || c = '-'

/-- The regex `^([a-z][\w-]*)\s*\((.*)\)$/i` as a structural matcher:
returns the raw keyword and the argument section on success. -/
def matchConditionShape (value : String) : Option (String × String) :=
  let chars := value.data
  let pre := chars.takeWhile (fun x => x ≠ '(')
  if pre.length = chars.length then none
  else
    let rest := chars.drop (pre.length + 1)
    if h : rest = [] then none
    else if rest.getLast h ≠ ')' then none
    else
      let args := rest.dropLast
      let kw := (pre.reverse.dropWhile Char.isWhitespace).reverse
      match kw with
      | [] => none
      | c :: tail =>
          if c.isAlpha && tail.all isKeywordTailChar then
            some (String.mk kw, String.mk args)
          else none

/-- The fixed synonym table of the `switch` in `parseCondition`
(lines 31–57): keyword ↦ condition kind. -/
def condKeywordTable : List (String × ConditionKind) :=
  [ ("visited", .visitedAll), ("visitedall", .visitedAll),
    ("visited-all", .visitedAll), ("visited_all", .visitedAll),
    ("visitedany", .visitedAny), ("visited-any", .visitedAny),
    ("visited_any", .visitedAny),
    ("has", .inventoryAll), ("hasall", .inventoryAll),
    ("inventory", .inventoryAll), ("inventoryall", .inventoryAll),
    ("inventory-all", .inventoryAll), ("inventory_all", .inventoryAll),
    ("hasany", .inventoryAny), ("has-any", .inventoryAny),
    ("has_any", .inventoryAny), ("inventoryany", .inventoryAny),
    ("inventory-any", .inventoryAny), ("inventory_any", .inventoryAny) ]

def condKeywordKind (keyword : String) : Option ConditionKind :=
  (condKeywordTable.find? (fun p => p.1 = keyword)).map Prod.snd

/-- Embedding of `parseCondition` (`src/js/parser/conditionParser.js`,
lines 8–58). -/
def parseCondition (raw : String) (lineNumber : Nat) (directive : String) :
    Except String Cond :=
  let value := strTrim raw
  if value = "" then
    .error ("Choice on line " ++ toString lineNumber ++ " is missing a value for \""
      ++ directive ++ "\".")
  else
    match matchConditionShape value with
    | none =>
        .error ("Condition \"" ++ value ++ "\" on line " ++ toString lineNumber
          ++ " must follow the pattern name(arg1, arg2, ...).")
    | some (kwRaw, argRaw) =>
        let keyword := strToLower kwRaw
        let argumentSection := strTrim argRaw
        let tokens := ((strSplitOnChar ',' argumentSection).map strTrim).filter
          (fun t => t ≠ "")
        if tokens = [] then
          .error ("Condition \"" ++ value ++ "\" on line " ++ toString lineNumber
            ++ " must include at least one argument.")
        else
          match condKeywordKind keyword with
          | some kind => .ok { kind := kind, values := tokens, raw := value }
          | none =>
              .error ("Unknown condition \"" ++ keyword ++ "\" on line "
                ++ toString lineNumber ++ ".")

/-- No keyword in the parser's synonym table produces `visited-none`, even
though the evaluator handles that kind and `src/story_format.md` documents
the keywords `visitedNone`, `visited-none`, `not-visited` and `unvisited`. -/
theorem condKeywordKind_no_visitedNone (keyword : String) :
    condKeywordKind keyword ≠ some ConditionKind.visitedNone := by
  intro h
  unfold condKeywordKind at h
  rcases hfind : condKeywordTable.find? (fun p => p.1 = keyword) with _ | p
  · rw [hfind] at h
    simp at h
  · rw [hfind] at h
    have hmem : p ∈ condKeywordTable := List.mem_of_find?_eq_some hfind
    have hkind : p.2 = ConditionKind.visitedNone := by
      simpa using h
    have hall : ∀ q ∈ condKeywordTable, q.2 ≠ ConditionKind.visitedNone := by decide
    exact hall p hmem hkind

/-- C4 evaluated at the failing inputs: the documented keywords for the
`visited-none` kind are rejected as unknown conditions by `parseCondition`,
while an argument-free condition is (as claimed) rejected as a parse
error. -/
theorem parseCondition_visitedNone_failing :
    parseCondition "visitedNone(B1)" 7 "optional"
      = .error "Unknown condition \"visitednone\" on line 7." ∧
    parseCondition "not-visited(B1)" 7 "optional"
      = .error "Unknown condition \"not-visited\" on line 7." ∧
    parseCondition "visited()" 7 "optional"
      = .error "Condition \"visited()\" on line 7 must include at least one argument." ∧
    parseCondition "visited(B1)" 7 "optional"
      = .ok { kind := ConditionKind.visitedAll, values := ["B1"], raw := "visited(B1)" } := by
  refine ⟨?_, ?_, ?_, ?_⟩ <;> rfl

/-! ## Inventory manager — `src/js/state/inventoryManager.js`

`applyInventoryEffects(inventory, effects)` walks the effect list, skipping
blank item names and zero deltas, adds each delta to the current count
(absent ↦ `0`), deletes the key when the updated count is `≤ 0`, and
returns the list of effects actually applied. -/

structure InvEffect where
  item : String
  delta : Int
deriving Repr, DecidableEq

/-- One iteration of the `applyInventoryEffects` loop (lines 38–62):
the updated inventory plus the applied entry, if any. -/
def applyInventoryEffect (inventory : List (String × Int)) (e : InvEffect) :
    List (String × Int) × Option InvEffect :=
  let item := strTrim e.item
  if item = "" then (inventory, none)
  else if e.delta = 0 then (inventory, none)
  else
    let current := (alookup inventory item).getD 0
    let updated := current + e.delta
    if updated ≤ 0 then (aerase inventory item, some ⟨item, e.delta⟩)
    else (aset inventory item updated, some ⟨item, e.delta⟩)

/-- Embedding of `applyInventoryEffects` (lines 29–65): the final inventory
and the applied-effect list. -/
def applyInventoryEffects (inventory : List (String × Int)) :
    List InvEffect → List (String × Int) × List InvEffect
  | [] => (inventory, [])
  | e :: rest =>
      let step := applyInventoryEffect inventory e
      let r := applyInventoryEffects step.1 rest
      (r.1, step.2.toList ++ r.2)

theorem applyInventoryEffect_pos (inventory : List (String × Int)) (e : InvEffect)
    (h : ∀ p ∈ inventory, 0 < p.2) :
    ∀ p ∈ (applyInventoryEffect inventory e).1, 0 < p.2 := by
  intro p hp
  unfold applyInventoryEffect at hp
  by_cases h1 : strTrim e.item = ""
  · exact h p (by simpa [h1] using hp)
  · by_cases h2 : e.delta = 0
    · exact h p (by simpa [h1, h2] using hp)
    · by_cases h3 : (alookup inventory (strTrim e.item)).getD 0 + e.delta ≤ 0
      · exact h p (mem_aerase _ _ _ (by simpa [h1, h2, h3] using hp))
      · rcases mem_aset _ _ _ _ (by simpa [h1, h2, h3] using hp) with h4 | h4
        · subst h4
          omega
        · exact h p h4

/-- C7: items are present only with counts strictly greater than `0`
(preserved by any effect list), and a delta driving an item's count to `0`
or below removes the key entirely. -/
theorem inventory_invariant (inventory : List (String × Int))
    (effects : List InvEffect) (h : ∀ p ∈ inventory, 0 < p.2) :
    (∀ p ∈ (applyInventoryEffects inventory effects).1, 0 < p.2) ∧
    (∀ e : InvEffect, strTrim e.item ≠ "" → e.delta ≠ 0 →
        (alookup inventory (strTrim e.item)).getD 0 + e.delta ≤ 0 →
        alookup (applyInventoryEffect inventory e).1 (strTrim e.item) = none) := by
  constructor
  · induction effects generalizing inventory with
    | nil => simpa [applyInventoryEffects] using h
    | cons e rest ih =>
        intro p hp
        exact ih _ (applyInventoryEffect_pos inventory e h) p
          (by simpa [applyInventoryEffects] using hp)
  · intro e h1 h2 h3
    unfold applyInventoryEffect
    simp only [h1, h2, h3, if_neg, if_pos, ite_true, ite_false]
    simpa [h1, h2, h3] using alookup_aerase inventory (strTrim e.item)

/-- Concrete check of `inventory_invariant`: removing the last rope deletes
the key, and the surviving map keeps the positivity invariant. -/
theorem inventory_invariant_witness :
    alookup (applyInventoryEffect [("rope", 1), ("key", 2)] ⟨"rope", -1⟩).1 "rope"
      = none ∧
    (∀ p ∈ (applyInventoryEffects [("rope", 1), ("key", 2)]
        [⟨"rope", -1⟩, ⟨"key", 3⟩]).1, 0 < p.2) := by
  have h := inventory_invariant [("rope", 1), ("key", 2)]
    [⟨"rope", -1⟩, ⟨"key", 3⟩] (by decide)
  refine ⟨?_, h.1⟩
  have h2 := h.2 ⟨"rope", -1⟩ (by decide) (by decide) (by decide)
  simpa using h2

/-! ## Journal manager — `src/js/state/journalManager.js`

`appendJournal(journal, text, maxEntries)` pushes a nonempty entry and,
when `maxEntries > 0` and the list has grown beyond it, splices the oldest
excess entries off the front. -/

/-- Embedding of `appendJournal` (lines 7–17). -/
def appendJournal (journal : List String) (text : String) (maxEntries : Nat) :
    List String :=
  if text = "" then journal
  else
    let j := journal ++ [text]
    if 0 < maxEntries ∧ maxEntries < j.length then j.drop (j.length - maxEntries)
    else j

/-- The last `k` entries of a list (the suffix `splice` keeps). -/
def lastN (k : Nat) (l : List String) : List String := l.drop (l.length - k)

theorem lastN_eq_self (k : Nat) (l : List String) (h : l.length ≤ k) :
    lastN k l = l := by
  simp [lastN, Nat.sub_eq_zero_of_le h]

theorem lastN_length_le (k : Nat) (l : List String) : (lastN k l).length ≤ k := by
  simp [lastN]
  omega

theorem lastN_cons (k : Nat) (x : String) (t : List String) (h : k ≤ t.length) :
    lastN k (x :: t) = lastN k t := by
  unfold lastN
  have hlen : (x :: t).length - k = (t.length - k) + 1 := by
    simp
    omega
  rw [hlen, List.drop_succ_cons]

theorem lastN_append_lastN (k : Nat) (xs ys : List String) :
    lastN k (lastN k xs ++ ys) = lastN k (xs ++ ys) := by
  induction xs with
  | nil => simp [lastN]
  | cons x t ih =>
      by_cases h : (x :: t).length ≤ k
      · rw [lastN_eq_self k (x :: t) h]
      · push_neg at h
        have hk : k ≤ t.length := by
          simp at h
          omega
        rw [lastN_cons k x t hk, ih, show (x :: t) ++ ys = x :: (t ++ ys) from rfl,
          lastN_cons k x (t ++ ys) (by simp; omega)]

theorem appendJournal_eq_lastN (journal : List String) (text : String)
    (maxEntries : Nat) (hmax : 0 < maxEntries) (htext : text ≠ "") :
    appendJournal journal text maxEntries = lastN maxEntries (journal ++ [text]) := by
  unfold appendJournal lastN
  simp only [if_neg htext]
  by_cases hover : maxEntries < (journal ++ [text]).length
  · rw [if_pos ⟨hmax, hover⟩]
  · rw [if_neg (fun hc => hover hc.2)]
    have hle := Nat.le_of_not_lt hover
    rw [Nat.sub_eq_zero_of_le hle, List.drop_zero]

theorem journalFold_eq (maxEntries : Nat) (hmax : 0 < maxEntries)
    (ts : List String) :
    ∀ l : List String, l.length ≤ maxEntries →
      ts.foldl (fun j t => appendJournal j t maxEntries) l
        = lastN maxEntries (l ++ ts.filter (fun t => t ≠ "")) := by
  induction ts with
  | nil =>
      intro l hl
      simpa using (lastN_eq_self maxEntries l hl).symm
  | cons t ts ih =>
      intro l hl
      simp only [List.foldl_cons]
      by_cases ht : t = ""
      · rw [show appendJournal l t maxEntries = l from by simp [appendJournal, ht],
          ih l hl]
        simp [ht]
      · rw [appendJournal_eq_lastN l t maxEntries hmax ht,
          ih _ (by simpa using lastN_length_le maxEntries (l ++ [t])),
          lastN_append_lastN]
        congr 1
        simp [ht]

/-- C8: starting from an empty journal, any sequence of appends leaves at
most `maxJournalEntries` entries, and the surviving entries are exactly the
most recent nonempty appended texts in their original order. -/
theorem journal_cap_spec (ts : List String) (maxEntries : Nat)
    (hmax : 0 < maxEntries) :
    (ts.foldl (fun j t => appendJournal j t maxEntries) []).length ≤ maxEntries ∧
    ts.foldl (fun j t => appendJournal j t maxEntries) []
      = lastN maxEntries (ts.filter (fun t => t ≠ "")) := by
  have h := journalFold_eq maxEntries hmax ts [] (by simp)
  constructor
  · rw [h]
    exact lastN_length_le maxEntries _
  · simpa using h

/-- Concrete check of `journal_cap_spec`: three appends with a cap of two
keep exactly the last two entries in order. -/
theorem journal_cap_spec_witness :
    ["a", "b", "c"].foldl (fun j t => appendJournal j t 2) [] = ["b", "c"] := by
  have h := (journal_cap_spec ["a", "b", "c"] 2 (by norm_num)).2
  rw [h]
  decide

/-! ## Stats manager — `src/js/state/statsManager.js` (unnamed part)

The `StatsManager` holds the case-folded stat-defaults registry
(`this.defaults`, embedded below as the `defaults` association list) and
partitions, evaluates and applies stat effects.  `label: effect.label ||
originalName` and similar `||` fallbacks on strings are embedded by
`jsOrString`. -/

structure DynamicSpec where
  dtype : String
  scale : Int
deriving Repr, DecidableEq

structure StatEffect where
  stat : String
  delta : Int
  dynamic : Option DynamicSpec
  label : Option String
deriving Repr, DecidableEq

structure EvalEffect where
  stat : String
  delta : Int
  label : String
deriving Repr, DecidableEq

/-- JS `v || fallback` on an optional string (empty string is falsy). -/
def jsOrString (v : Option String) (fallback : String) : String :=
  match v with
  | some s => if s = "" then fallback else s
  | none => fallback

/-- JS `Set.add`: insertion-ordered dedupe. -/
def addUnique (l : List String) (x : String) : List String :=
  if l.contains x then l else l ++ [x]

/-- Embedding of `StatsManager.partitionEffects`: splits a choice's stat
effects into normalized allowed effects (key configured in the defaults)
and the distinct original-case unknown names. -/
def partitionEffects (defaults : List (String × Int)) (effects : List StatEffect) :
    List StatEffect × List String :=
  effects.foldl
    (fun acc e =>
      let originalName := strTrim e.stat
      if originalName = "" then acc
      else
        let key := strToLower originalName
        let normalized : StatEffect :=
          { stat := key, delta := e.delta, dynamic := e.dynamic,
            label := some (jsOrString e.label originalName) }
        if (alookup defaults key).isSome then (acc.1 ++ [normalized], acc.2)
        else (acc.1, addUnique acc.2 originalName))
    ([], [])

/-- Embedding of `StatsManager.resolveDynamicEffect`: the explicit roll
context wins over the stored last roll; an unrecognized dynamic type or a
missing roll yields `none` (JS `NaN`). -/
def resolveDynamicEffect (dyn : DynamicSpec) (context lastRoll : Option RollResult) :
    Option Int :=
  match context with
  | some r => resolveDynamicBase dyn r
  | none =>
      match lastRoll with
      | some r => resolveDynamicBase dyn r
      | none => none
where
  resolveDynamicBase (dyn : DynamicSpec) (r : RollResult) : Option Int :=
    if dyn.dtype = "roll-total" then some (dyn.scale * r.total)
    else if dyn.dtype = "roll-dice" then some (dyn.scale * r.diceTotal)
    else if dyn.dtype = "roll-stat" then some (dyn.scale * r.statValue)
    else none

/-- Embedding of `StatsManager.evaluateEffects`: computes the numeric delta
of each allowed effect (dynamic deltas from the roll context), collecting
an issue message for each dynamic effect that cannot be resolved. -/
def evaluateEffects (defaults : List (String × Int)) (effects : List StatEffect)
    (context lastRoll : Option RollResult) : List EvalEffect × List String :=
  effects.foldl
    (fun acc e =>
      let key := strToLower (strTrim e.stat)
      if key = "" then acc
      else if (alookup defaults key).isNone then acc
      else
        let label := jsOrString e.label e.stat
        match e.dynamic with
        | some dyn =>
            if dyn.dtype = "" then (acc.1 ++ [⟨key, e.delta, label⟩], acc.2)
            else
              match resolveDynamicEffect dyn context lastRoll with
              | none =>
                  (acc.1,
                    acc.2 ++ ["Unable to resolve dynamic value for stat \"" ++ label ++ "\"."])
              | some d => (acc.1 ++ [⟨key, d, label⟩], acc.2)
        | none => (acc.1 ++ [⟨key, e.delta, label⟩], acc.2))
    ([], [])

/-- Embedding of `StatsManager.applyEvaluatedEffects`: adds each nonzero
delta of a configured stat onto its current value (falling back to the
default when unset) and records the applied `(stat, delta)` pairs. -/
def applyEvaluatedEffects (defaults stats : List (String × Int))
    (evaluated : List EvalEffect) : List (String × Int) × List (String × Int) :=
  evaluated.foldl
    (fun acc e =>
      let key := strToLower (strTrim e.stat)
      if key = "" then acc
      else if (alookup defaults key).isNone then acc
      else if e.delta = 0 then acc
      else
        let base :=
          match alookup acc.1 key with
          | some v => v
          | none => (alookup defaults key).getD 0
        (aset acc.1 key (base + e.delta), acc.2 ++ [(key, e.delta)]))
    (stats, [])

/-- Embedding of `StatsManager.getValue`: current value, then the default,
then `0`. -/
def getStatValue (defaults stats : List (String × Int)) (stat : String) : Int :=
  let key := strToLower (strTrim stat)
  if key = "" then 0
  else
    match alookup stats key with
    | some v => v
    | none => (alookup defaults key).getD 0

/-! ## Runtime state and choice resolution —
`src/js/state/storyState.js` and the choice-processing module
(unnamed parts), destination validation from `src/js/storyEngine.js`

`StoryState` is embedded as the record `EngineState`; the orchestrator
`processChoiceSelection({choice, state, renderer, runRollImpl, formatSigned})`
is embedded with the injected `runRollImpl` as an explicit parameter (the
renderer calls touch no engine state).  The destination-validation tail of
`StoryEngine.handleChoice` (`src/js/storyEngine.js`, lines 191–204) is
embedded in `handleChoiceResolved`, which also performs the engine's
initial `clearSystemError` / `clearLastRoll`. -/

structure EngineState where
  currentBranchId : Option String
  stats : List (String × Int)
  inventory : List (String × Int)
  journal : List String
  visitedBranches : List String
  lastRoll : Option RollResult
  systemError : Option String
deriving Repr, DecidableEq

structure StoryChoice where
  id : String
  text : String
  next : Option String
  stats : List StatEffect
  inventory : List InvEffect
  roll : Option RollDirective
  visibilityCondition : Option Cond
  validCondition : Option Cond
deriving Repr, DecidableEq

/-- `formatSigned` (`src/js/storyUtilities.js`): nonnegative values get an
explicit plus sign. -/
def formatSigned (value : Int) : String :=
  if 0 ≤ value then "+" ++ toString value else toString value

/-- `StoryState.setCurrentBranch`: trim the id; a nonempty id becomes
current and is marked visited, anything else clears the current branch. -/
def setCurrentBranch (st : EngineState) (branchId : Option String) : EngineState :=
  match branchId with
  | some s =>
      let normalized := strTrim s
      if normalized = "" then { st with currentBranchId := none }
      else
        { st with currentBranchId := some normalized,
                  visitedBranches := markVisited st.visitedBranches normalized }
  | none => { st with currentBranchId := none }

def charListLe : List Char → List Char → Bool
  | [], _ => true
  | _ :: _, [] => false
  | a :: as, b :: bs => if a < b then true else if b < a then false else charListLe as bs

/-- Lexicographic string order: the embedding of the
`(a, b) => a.localeCompare(b)` comparator on the ASCII stat names. -/
def strLe (a b : String) : Bool := charListLe a.data b.data

def insertSorted (x : String) : List String → List String
  | [] => [x]
  | y :: rest => if strLe x y then x :: y :: rest else y :: insertSorted x rest

/-- `Array.from(set).sort((a, b) => a.localeCompare(b))`. -/
def sortStrings : List String → List String
  | [] => []
  | x :: rest => insertSorted x (sortStrings rest)

/-- The unknown-stat system error message built by the orchestrator:
sorted names, comma-joined, plural suffix from the name count. -/
def unknownStatsMessage (unknownNames : List String) : String :=
  let names := sortStrings unknownNames
  let suffix := if 1 < names.length then "s" else ""
  "Unknown stat" ++ suffix ++ " encountered: " ++ String.intercalate ", " names
    ++ ". Update the stat config."

/-- JS `choice.next || null`. -/
def jsOrNull (v : Option String) : Option String :=
  match v with
  | some s => if s = "" then none else some s
  | none => none

/-- The tail of `processChoiceSelection` (summaries, effect application,
journal entry, unknown-stat / dynamic-issue system error), shared by the
roll and no-roll paths. -/
def finishChoice (defaults : List (String × Int)) (maxJournalEntries : Nat)
    (choice : StoryChoice) (st : EngineState) (rollOutcomeLabel : Option String)
    (evaluated : List EvalEffect) (invToApply : List InvEffect)
    (unknown issues : List String) (next : Option String) :
    EngineState × Option String :=
  let summaries0 : List String :=
    match rollOutcomeLabel with
    | some l => [l]
    | none => []
  let statsRes :=
    if evaluated.isEmpty then (st.stats, [])
    else applyEvaluatedEffects defaults st.stats evaluated
  let appliedStats := statsRes.2
  let summaries1 :=
    if appliedStats.isEmpty then summaries0
    else summaries0 ++ ["Stats: " ++ String.intercalate ", "
      (appliedStats.map (fun p => p.1 ++ " " ++ formatSigned p.2))]
  let invRes :=
    if invToApply.isEmpty then (st.inventory, [])
    else applyInventoryEffects st.inventory invToApply
  let appliedInv := invRes.2
  let summaries2 :=
    if appliedInv.isEmpty then summaries1
    else summaries1 ++ ["Inventory: " ++ String.intercalate ", "
      (appliedInv.map (fun e => e.item ++ " " ++ formatSigned e.delta))]
  let journal2 :=
    if appliedStats.isEmpty && appliedInv.isEmpty then st.journal
    else
      appendJournal st.journal
        (if summaries2.isEmpty then choice.text
         else choice.text ++ " → " ++ String.intercalate " | " summaries2)
        maxJournalEntries
  let systemError2 :=
    match st.systemError with
    | some e => some e
    | none =>
        if ¬unknown.isEmpty then some (unknownStatsMessage unknown)
        else if ¬issues.isEmpty then some (String.intercalate " | " issues)
        else none
  ({ st with stats := statsRes.1, inventory := invRes.1, journal := journal2,
             systemError := systemError2 }, next)

/-- Embedding of `processChoiceSelection` (unnamed choice-processing
module): resolves a roll when present (clearing `lastRoll` afterwards),
evaluates stat effects — with the fresh roll result as dynamic context on
both roll outcomes — stages inventory effects (unconditionally without a
roll, only on success with one), applies them, journals, surfaces
unknown-stat or dynamic-resolution errors, and returns the pending
destination. -/
def processChoiceSelection (defaults : List (String × Int))
    (maxJournalEntries : Nat)
    (runRollImpl : RollDirective → (String → Int) → RollResult)
    (choice : StoryChoice) (st : EngineState) : EngineState × Option String :=
  let partition := partitionEffects defaults choice.stats
  match choice.roll with
  | some r =>
      let rollResult := runRollImpl r (fun stat => getStatValue defaults st.stats stat)
      let evalR := evaluateEffects defaults partition.1 (some rollResult) st.lastRoll
      let invToApply := if rollResult.success then choice.inventory else []
      let label := if rollResult.success then "Roll: Success" else "Roll: Failure"
      let next := if rollResult.success then some r.ok else some r.fail
      finishChoice defaults maxJournalEntries choice { st with lastRoll := none }
        (some label) evalR.1 invToApply partition.2 evalR.2 next
  | none =>
      let evalR := evaluateEffects defaults partition.1 none st.lastRoll
      finishChoice defaults maxJournalEntries choice st none evalR.1
        choice.inventory partition.2 evalR.2 (jsOrNull choice.next)

/-- The full resolution pipeline: the engine clears `systemError` and
`lastRoll`, runs `processChoiceSelection`, then validates the pending
destination exactly as `StoryEngine.handleChoice` lines 191–204 — a
missing destination only sets `systemError`, a valid one becomes the
current branch (marking it visited). -/
def handleChoiceResolved (branchIds : List String)
    (defaults : List (String × Int)) (maxJournalEntries : Nat)
    (runRollImpl : RollDirective → (String → Int) → RollResult)
    (choice : StoryChoice) (st : EngineState) : EngineState :=
  let st0 := { st with systemError := none, lastRoll := none }
  let res := processChoiceSelection defaults maxJournalEntries runRollImpl choice st0
  match res.2 with
  | none =>
      { res.1 with systemError := some "Choice does not specify a destination branch." }
  | some d =>
      if d = "" then
        { res.1 with systemError := some "Choice does not specify a destination branch." }
      else if branchIds.contains d then setCurrentBranch res.1 (some d)
      else { res.1 with systemError := some ("Missing branch \"" ++ d ++ "\".") }

theorem finishChoice_currentBranch (defaults : List (String × Int))
    (maxJournalEntries : Nat) (choice : StoryChoice) (st : EngineState)
    (rollOutcomeLabel : Option String) (evaluated : List EvalEffect)
    (invToApply : List InvEffect) (unknown issues : List String)
    (next : Option String) :
    (finishChoice defaults maxJournalEntries choice st rollOutcomeLabel evaluated
      invToApply unknown issues next).1.currentBranchId = st.currentBranchId := by
  rfl

theorem processChoice_currentBranch (defaults : List (String × Int))
    (maxJournalEntries : Nat)
    (runRollImpl : RollDirective → (String → Int) → RollResult)
    (choice : StoryChoice) (st : EngineState) :
    (processChoiceSelection defaults maxJournalEntries runRollImpl choice
      st).1.currentBranchId = st.currentBranchId := by
  unfold processChoiceSelection
  cases choice.roll <;> rfl

theorem finishChoice_systemError (defaults : List (String × Int))
    (maxJournalEntries : Nat) (choice : StoryChoice) (st : EngineState)
    (rollOutcomeLabel : Option String) (evaluated : List EvalEffect)
    (invToApply : List InvEffect) (unknown issues : List String)
    (next : Option String) (hse : st.systemError = none) (hu : unknown ≠ []) :
    (finishChoice defaults maxJournalEntries choice st rollOutcomeLabel evaluated
      invToApply unknown issues next).1.systemError
      = some (unknownStatsMessage unknown) := by
  unfold finishChoice
  simp only [hse]
  have : unknown.isEmpty = false := by
    cases unknown with
    | nil => exact absurd rfl hu
    | cons a l => rfl
  simp [this]

theorem processChoice_systemError (defaults : List (String × Int))
    (maxJournalEntries : Nat)
    (runRollImpl : RollDirective → (String → Int) → RollResult)
    (choice : StoryChoice) (st : EngineState) (hse : st.systemError = none)
    (hu : (partitionEffects defaults choice.stats).2 ≠ []) :
    (processChoiceSelection defaults maxJournalEntries runRollImpl choice
      st).1.systemError
      = some (unknownStatsMessage (partitionEffects defaults choice.stats).2) := by
  unfold processChoiceSelection
  cases hr : choice.roll with
  | none => exact finishChoice_systemError _ _ _ _ _ _ _ _ _ _ hse hu
  | some r => exact finishChoice_systemError _ _ _ _ _ _ _ _ _ _ hse hu

theorem applyEvaluatedEffects_untouched (defaults : List (String × Int))
    (evaluated : List EvalEffect) (stats : List (String × Int)) (k : String)
    (hk : alookup defaults k = none) :
    alookup (applyEvaluatedEffects defaults stats evaluated).1 k
      = alookup stats k := by
  suffices hgen : ∀ acc : List (String × Int) × List (String × Int),
      alookup (evaluated.foldl
        (fun acc e =>
          let key := strToLower (strTrim e.stat)
          if key = "" then acc
          else if (alookup defaults key).isNone then acc
          else if e.delta = 0 then acc
          else
            let base :=
              match alookup acc.1 key with
              | some v => v
              | none => (alookup defaults key).getD 0
            (aset acc.1 key (base + e.delta), acc.2 ++ [(key, e.delta)])) acc).1 k
        = alookup acc.1 k by
    exact hgen (stats, [])
  induction evaluated with
  | nil => intro acc; rfl
  | cons e rest ih =>
      intro acc
      simp only [List.foldl_cons]
      by_cases h1 : strToLower (strTrim e.stat) = ""
      · rw [show (if strToLower (strTrim e.stat) = "" then acc
            else if (alookup defaults (strToLower (strTrim e.stat))).isNone then acc
            else if e.delta = 0 then acc
            else (aset acc.1 (strToLower (strTrim e.stat))
              ((match alookup acc.1 (strToLower (strTrim e.stat)) with
                | some v => v
                | none => (alookup defaults (strToLower (strTrim e.stat))).getD 0)
                + e.delta), acc.2 ++ [(strToLower (strTrim e.stat), e.delta)]))
            = acc from by simp [h1]]
        exact ih acc
      · by_cases h2 : (alookup defaults (strToLower (strTrim e.stat))).isNone
        · rw [show (if strToLower (strTrim e.stat) = "" then acc
              else if (alookup defaults (strToLower (strTrim e.stat))).isNone then acc
              else if e.delta = 0 then acc
              else (aset acc.1 (strToLower (strTrim e.stat))
                ((match alookup acc.1 (strToLower (strTrim e.stat)) with
                  | some v => v
                  | none => (alookup defaults (strToLower (strTrim e.stat))).getD 0)
                  + e.delta), acc.2 ++ [(strToLower (strTrim e.stat), e.delta)]))
              = acc from by simp [h1, h2]]
          exact ih acc
        · by_cases h3 : e.delta = 0
          · rw [show (if strToLower (strTrim e.stat) = "" then acc
                else if (alookup defaults (strToLower (strTrim e.stat))).isNone then acc
                else if e.delta = 0 then acc
                else (aset acc.1 (strToLower (strTrim e.stat))
                  ((match alookup acc.1 (strToLower (strTrim e.stat)) with
                    | some v => v
                    | none => (alookup defaults (strToLower (strTrim e.stat))).getD 0)
                    + e.delta), acc.2 ++ [(strToLower (strTrim e.stat), e.delta)]))
                = acc from by simp [h1, h2, h3]]
            exact ih acc
          · have hkey : k ≠ strToLower (strTrim e.stat) := by
              intro hcontra
              rw [hcontra] at hk
              simp [hk] at h2
            rw [show (if strToLower (strTrim e.stat) = "" then acc
                else if (alookup defaults (strToLower (strTrim e.stat))).isNone then acc
                else if e.delta = 0 then acc
                else (aset acc.1 (strToLower (strTrim e.stat))
                  ((match alookup acc.1 (strToLower (strTrim e.stat)) with
                    | some v => v
                    | none => (alookup defaults (strToLower (strTrim e.stat))).getD 0)
                    + e.delta), acc.2 ++ [(strToLower (strTrim e.stat), e.delta)]))
                = (aset acc.1 (strToLower (strTrim e.stat))
                  ((match alookup acc.1 (strToLower (strTrim e.stat)) with
                    | some v => v
                    | none => (alookup defaults (strToLower (strTrim e.stat))).getD 0)
                    + e.delta), acc.2 ++ [(strToLower (strTrim e.stat), e.delta)])
                from by simp [h1, h2, h3]]
            rw [ih]
            exact alookup_aset_ne _ _ _ _ hkey

theorem finishChoice_stats (defaults : List (String × Int))
    (maxJournalEntries : Nat) (choice : StoryChoice) (st : EngineState)
    (rollOutcomeLabel : Option String) (evaluated : List EvalEffect)
    (invToApply : List InvEffect) (unknown issues : List String)
    (next : Option String) :
    (finishChoice defaults maxJournalEntries choice st rollOutcomeLabel evaluated
      invToApply unknown issues next).1.stats
      = (if evaluated.isEmpty then st.stats
         else (applyEvaluatedEffects defaults st.stats evaluated).1) := by
  unfold finishChoice
  by_cases hev : evaluated.isEmpty <;> simp [hev]

theorem finishChoice_inventory (defaults : List (String × Int))
    (maxJournalEntries : Nat) (choice : StoryChoice) (st : EngineState)
    (rollOutcomeLabel : Option String) (evaluated : List EvalEffect)
    (invToApply : List InvEffect) (unknown issues : List String)
    (next : Option String) :
    (finishChoice defaults maxJournalEntries choice st rollOutcomeLabel evaluated
      invToApply unknown issues next).1.inventory
      = (if invToApply.isEmpty then st.inventory
         else (applyInventoryEffects st.inventory invToApply).1) := by
  unfold finishChoice
  by_cases hinv : invToApply.isEmpty <;> simp [hinv]

theorem finishChoice_next (defaults : List (String × Int))
    (maxJournalEntries : Nat) (choice : StoryChoice) (st : EngineState)
    (rollOutcomeLabel : Option String) (evaluated : List EvalEffect)
    (invToApply : List InvEffect) (unknown issues : List String)
    (next : Option String) :
    (finishChoice defaults maxJournalEntries choice st rollOutcomeLabel evaluated
      invToApply unknown issues next).2 = next := by
  rfl

theorem processChoice_stats_untouched (defaults : List (String × Int))
    (maxJournalEntries : Nat)
    (runRollImpl : RollDirective → (String → Int) → RollResult)
    (choice : StoryChoice) (st : EngineState) (k : String)
    (hk : alookup defaults k = none) :
    alookup (processChoiceSelection defaults maxJournalEntries runRollImpl choice
      st).1.stats k = alookup st.stats k := by
  unfold processChoiceSelection
  cases hr : choice.roll with
  | none =>
      rw [finishChoice_stats]
      by_cases hev : (evaluateEffects defaults
          (partitionEffects defaults choice.stats).1 none st.lastRoll).1.isEmpty
      · simp [hev]
      · simp only [hev, if_false, Bool.false_eq_true]
        exact applyEvaluatedEffects_untouched defaults _ st.stats k hk
  | some r =>
      rw [finishChoice_stats]
      by_cases hev : (evaluateEffects defaults
          (partitionEffects defaults choice.stats).1
          (some (runRollImpl r (fun stat => getStatValue defaults st.stats stat)))
          st.lastRoll).1.isEmpty
      · simp [hev]
      · simp only [hev, if_false, Bool.false_eq_true]
        exact applyEvaluatedEffects_untouched defaults _ st.stats k hk

theorem setCurrentBranch_fields (st : EngineState) (b : String) :
    (setCurrentBranch st (some b)).stats = st.stats ∧
    (setCurrentBranch st (some b)).systemError = st.systemError ∧
    (strTrim b ≠ "" → (setCurrentBranch st (some b)).currentBranchId
      = some (strTrim b)) := by
  unfold setCurrentBranch
  by_cases h : strTrim b = "" <;> simp [h]

/-- C1: when the resolved destination branch id is absent from the branch
graph, `handleChoice` only sets `systemError` to the exact message
`Missing branch "<id>".` on the post-effects state — `currentBranchId` is
unchanged and the stat and inventory deltas already applied during the
resolution stay in effect (no rollback). -/
theorem handleChoice_missing_branch (branchIds : List String)
    (defaults : List (String × Int)) (maxJournalEntries : Nat)
    (runRollImpl : RollDirective → (String → Int) → RollResult)
    (choice : StoryChoice) (st : EngineState) (d : String)
    (hd : (processChoiceSelection defaults maxJournalEntries runRollImpl choice
      { st with systemError := none, lastRoll := none }).2 = some d)
    (hne : d ≠ "") (hmiss : branchIds.contains d = false) :
    handleChoiceResolved branchIds defaults maxJournalEntries runRollImpl choice st
      = { (processChoiceSelection defaults maxJournalEntries runRollImpl choice
            { st with systemError := none, lastRoll := none }).1
          with systemError := some ("Missing branch \"" ++ d ++ "\".") } ∧
    (handleChoiceResolved branchIds defaults maxJournalEntries runRollImpl choice
      st).currentBranchId = st.currentBranchId := by
  have h1 : handleChoiceResolved branchIds defaults maxJournalEntries runRollImpl
      choice st
      = { (processChoiceSelection defaults maxJournalEntries runRollImpl choice
            { st with systemError := none, lastRoll := none }).1
          with systemError := some ("Missing branch \"" ++ d ++ "\".") } := by
    unfold handleChoiceResolved
    dsimp only []
    rw [hd]
    have hmem : ¬ d ∈ branchIds := by simpa using hmiss
    simp [hne, hmem]
  refine ⟨h1, ?_⟩
  rw [h1]
  show (processChoiceSelection defaults maxJournalEntries runRollImpl choice
    { st with systemError := none, lastRoll := none }).1.currentBranchId
    = st.currentBranchId
  rw [processChoice_currentBranch]

/-- Concrete check of `handleChoice_missing_branch`: a choice pointing at
the undeclared branch `Z` leaves the current branch `A` and surfaces the
exact missing-branch message. -/
theorem handleChoice_missing_branch_witness :
    (handleChoiceResolved ["A"] [] 8
      (fun dctv _ => { directive := dctv, statValue := 0, rolls := [1],
                       diceTotal := 1, total := 1, success := false })
      { id := "A:1", text := "Go", next := some "Z", stats := [], inventory := [],
        roll := none, visibilityCondition := none, validCondition := none }
      { currentBranchId := some "A", stats := [], inventory := [], journal := [],
        visitedBranches := ["A"], lastRoll := none,
        systemError := none }).systemError = some "Missing branch \"Z\"." ∧
    (handleChoiceResolved ["A"] [] 8
      (fun dctv _ => { directive := dctv, statValue := 0, rolls := [1],
                       diceTotal := 1, total := 1, success := false })
      { id := "A:1", text := "Go", next := some "Z", stats := [], inventory := [],
        roll := none, visibilityCondition := none, validCondition := none }
      { currentBranchId := some "A", stats := [], inventory := [], journal := [],
        visitedBranches := ["A"], lastRoll := none,
        systemError := none }).currentBranchId = some "A" := by
  have h := handleChoice_missing_branch ["A"] [] 8
    (fun dctv _ => { directive := dctv, statValue := 0, rolls := [1],
                     diceTotal := 1, total := 1, success := false })
    { id := "A:1", text := "Go", next := some "Z", stats := [], inventory := [],
      roll := none, visibilityCondition := none, validCondition := none }
    { currentBranchId := some "A", stats := [], inventory := [], journal := [],
      visitedBranches := ["A"], lastRoll := none, systemError := none }
    "Z" rfl (by decide) rfl
  exact ⟨by rw [h.1]; rfl, h.2⟩

/-- C2: with a roll directive present, `processChoiceSelection` evaluates
the stat effects with the just-computed roll result as dynamic context on
both outcomes, stages the inventory effects only on success, and the
pending destination is `roll.ok` on success and `roll.fail` on failure. -/
theorem processChoice_roll_semantics (defaults : List (String × Int))
    (maxJournalEntries : Nat)
    (runRollImpl : RollDirective → (String → Int) → RollResult)
    (choice : StoryChoice) (st : EngineState) (r : RollDirective)
    (hroll : choice.roll = some r) :
    (processChoiceSelection defaults maxJournalEntries runRollImpl choice st).2
      = some (if (runRollImpl r (fun stat => getStatValue defaults st.stats
          stat)).success then r.ok else r.fail) ∧
    (processChoiceSelection defaults maxJournalEntries runRollImpl choice
        st).1.stats
      = (if (evaluateEffects defaults (partitionEffects defaults choice.stats).1
            (some (runRollImpl r (fun stat => getStatValue defaults st.stats stat)))
            st.lastRoll).1.isEmpty then st.stats
         else (applyEvaluatedEffects defaults st.stats
            (evaluateEffects defaults (partitionEffects defaults choice.stats).1
              (some (runRollImpl r (fun stat => getStatValue defaults st.stats stat)))
              st.lastRoll).1).1) ∧
    (processChoiceSelection defaults maxJournalEntries runRollImpl choice
        st).1.inventory
      = (if (runRollImpl r (fun stat => getStatValue defaults st.stats
            stat)).success then
           (if choice.inventory.isEmpty then st.inventory
            else (applyInventoryEffects st.inventory choice.inventory).1)
         else st.inventory) := by
  unfold processChoiceSelection
  rw [hroll]
  dsimp only []
  cases hs : (runRollImpl r (fun stat => getStatValue defaults st.stats
      stat)).success with
  | false =>
      refine ⟨by rw [finishChoice_next]; rfl, ?_, ?_⟩
      · rw [finishChoice_stats]
      · rw [finishChoice_inventory]
        simp
  | true =>
      refine ⟨by rw [finishChoice_next]; rfl, ?_, ?_⟩
      · rw [finishChoice_stats]
      · rw [finishChoice_inventory]
        simp

/-- Concrete check of `processChoice_roll_semantics` on a failing roll: the
dynamic `luck` effect is still applied from the roll result, the staged
rope is not granted, and the destination is the roll's `fail` branch. -/
theorem processChoice_roll_semantics_witness :
    (processChoiceSelection [("luck", 0)] 8
      (fun dctv _ => { directive := dctv, statValue := 0, rolls := [1],
                       diceTotal := 1, total := 1, success := false })
      { id := "A:1", text := "Try", next := none,
        stats := [{ stat := "luck", delta := 0,
                    dynamic := some { dtype := "roll-total", scale := 1 },
                    label := none }],
        inventory := [{ item := "rope", delta := 1 }],
        roll := some { stat := none, diceCount := 1, diceSides := 6, target := 10,
                       ok := "W", fail := "L" },
        visibilityCondition := none, validCondition := none }
      { currentBranchId := some "A", stats := [("luck", 0)], inventory := [],
        journal := [], visitedBranches := ["A"], lastRoll := none,
        systemError := none }).2 = some "L" ∧
    (processChoiceSelection [("luck", 0)] 8
      (fun dctv _ => { directive := dctv, statValue := 0, rolls := [1],
                       diceTotal := 1, total := 1, success := false })
      { id := "A:1", text := "Try", next := none,
        stats := [{ stat := "luck", delta := 0,
                    dynamic := some { dtype := "roll-total", scale := 1 },
                    label := none }],
        inventory := [{ item := "rope", delta := 1 }],
        roll := some { stat := none, diceCount := 1, diceSides := 6, target := 10,
                       ok := "W", fail := "L" },
        visibilityCondition := none, validCondition := none }
      { currentBranchId := some "A", stats := [("luck", 0)], inventory := [],
        journal := [], visitedBranches := ["A"], lastRoll := none,
        systemError := none }).1.stats = [("luck", 1)] ∧
    (processChoiceSelection [("luck", 0)] 8
      (fun dctv _ => { directive := dctv, statValue := 0, rolls := [1],
                       diceTotal := 1, total := 1, success := false })
      { id := "A:1", text := "Try", next := none,
        stats := [{ stat := "luck", delta := 0,
                    dynamic := some { dtype := "roll-total", scale := 1 },
                    label := none }],
        inventory := [{ item := "rope", delta := 1 }],
        roll := some { stat := none, diceCount := 1, diceSides := 6, target := 10,
                       ok := "W", fail := "L" },
        visibilityCondition := none, validCondition := none }
      { currentBranchId := some "A", stats := [("luck", 0)], inventory := [],
        journal := [], visitedBranches := ["A"], lastRoll := none,
        systemError := none }).1.inventory = [] := by
  have h := processChoice_roll_semantics [("luck", 0)] 8
    (fun dctv _ => { directive := dctv, statValue := 0, rolls := [1],
                     diceTotal := 1, total := 1, success := false })
    { id := "A:1", text := "Try", next := none,
      stats := [{ stat := "luck", delta := 0,
                  dynamic := some { dtype := "roll-total", scale := 1 },
                  label := none }],
      inventory := [{ item := "rope", delta := 1 }],
      roll := some { stat := none, diceCount := 1, diceSides := 6, target := 10,
                     ok := "W", fail := "L" },
      visibilityCondition := none, validCondition := none }
    { currentBranchId := some "A", stats := [("luck", 0)], inventory := [],
      journal := [], visitedBranches := ["A"], lastRoll := none,
      systemError := none }
    { stat := none, diceCount := 1, diceSides := 6, target := 10,
      ok := "W", fail := "L" } rfl
  exact ⟨by rw [h.1]; rfl, by rw [h.2.1]; rfl, by rw [h.2.2]; rfl⟩

/-- C6: a choice carrying stat effects whose case-folded names are not in
the configured defaults still transitions to its (valid) destination; the
stats map is untouched at every unconfigured key; and `systemError` becomes
the message listing the sorted, comma-joined unknown original-case names. -/
theorem handleChoice_unknown_stat (branchIds : List String)
    (defaults : List (String × Int)) (maxJournalEntries : Nat)
    (runRollImpl : RollDirective → (String → Int) → RollResult)
    (choice : StoryChoice) (st : EngineState) (d : String)
    (hu : (partitionEffects defaults choice.stats).2 ≠ [])
    (hd : (processChoiceSelection defaults maxJournalEntries runRollImpl choice
      { st with systemError := none, lastRoll := none }).2 = some d)
    (hne : d ≠ "") (hdt : strTrim d = d) (hmem : branchIds.contains d = true) :
    (handleChoiceResolved branchIds defaults maxJournalEntries runRollImpl choice
      st).currentBranchId = some d ∧
    (handleChoiceResolved branchIds defaults maxJournalEntries runRollImpl choice
      st).systemError
      = some (unknownStatsMessage (partitionEffects defaults choice.stats).2) ∧
    (∀ k, alookup defaults k = none →
        alookup (handleChoiceResolved branchIds defaults maxJournalEntries
          runRollImpl choice st).stats k = alookup st.stats k) := by
  have hred : handleChoiceResolved branchIds defaults maxJournalEntries runRollImpl
      choice st
      = setCurrentBranch (processChoiceSelection defaults maxJournalEntries
          runRollImpl choice { st with systemError := none, lastRoll := none }).1
          (some d) := by
    unfold handleChoiceResolved
    dsimp only []
    rw [hd]
    have hmem2 : d ∈ branchIds := by simpa using hmem
    simp [hne, hmem2]
  have hfields := setCurrentBranch_fields
    (processChoiceSelection defaults maxJournalEntries runRollImpl choice
      { st with systemError := none, lastRoll := none }).1 d
  refine ⟨?_, ?_, ?_⟩
  · rw [hred, hfields.2.2 (by rw [hdt]; exact hne), hdt]
  · rw [hred, hfields.2.1]
    exact processChoice_systemError defaults maxJournalEntries runRollImpl choice
      { st with systemError := none, lastRoll := none } rfl hu
  · intro k hk
    rw [hred, hfields.1]
    exact processChoice_stats_untouched defaults maxJournalEntries runRollImpl
      choice { st with systemError := none, lastRoll := none } k hk

/-- Concrete check of `handleChoice_unknown_stat`: a `vigor+1` effect with
`vigor` unconfigured still transitions `A → B` and surfaces the exact
message `Unknown stat encountered: vigor. Update the stat config.`. -/
theorem handleChoice_unknown_stat_witness :
    (handleChoiceResolved ["B"] [("luck", 0)] 8
      (fun dctv _ => { directive := dctv, statValue := 0, rolls := [1],
                       diceTotal := 1, total := 1, success := false })
      { id := "A:1", text := "Go", next := some "B",
        stats := [{ stat := "vigor", delta := 1, dynamic := none, label := none }],
        inventory := [], roll := none, visibilityCondition := none,
        validCondition := none }
      { currentBranchId := some "A", stats := [("luck", 0)], inventory := [],
        journal := [], visitedBranches := ["A"], lastRoll := none,
        systemError := none }).currentBranchId = some "B" ∧
    (handleChoiceResolved ["B"] [("luck", 0)] 8
      (fun dctv _ => { directive := dctv, statValue := 0, rolls := [1],
                       diceTotal := 1, total := 1, success := false })
      { id := "A:1", text := "Go", next := some "B",
        stats := [{ stat := "vigor", delta := 1, dynamic := none, label := none }],
        inventory := [], roll := none, visibilityCondition := none,
        validCondition := none }
      { currentBranchId := some "A", stats := [("luck", 0)], inventory := [],
        journal := [], visitedBranches := ["A"], lastRoll := none,
        systemError := none }).systemError
      = some "Unknown stat encountered: vigor. Update the stat config." ∧
    alookup (handleChoiceResolved ["B"] [("luck", 0)] 8
      (fun dctv _ => { directive := dctv, statValue := 0, rolls := [1],
                       diceTotal := 1, total := 1, success := false })
      { id := "A:1", text := "Go", next := some "B",
        stats := [{ stat := "vigor", delta := 1, dynamic := none, label := none }],
        inventory := [], roll := none, visibilityCondition := none,
        validCondition := none }
      { currentBranchId := some "A", stats := [("luck", 0)], inventory := [],
        journal := [], visitedBranches := ["A"], lastRoll := none,
        systemError := none }).stats "vigor" = none := by
  have h := handleChoice_unknown_stat ["B"] [("luck", 0)] 8
    (fun dctv _ => { directive := dctv, statValue := 0, rolls := [1],
                     diceTotal := 1, total := 1, success := false })
    { id := "A:1", text := "Go", next := some "B",
      stats := [{ stat := "vigor", delta := 1, dynamic := none, label := none }],
      inventory := [], roll := none, visibilityCondition := none,
      validCondition := none }
    { currentBranchId := some "A", stats := [("luck", 0)], inventory := [],
      journal := [], visitedBranches := ["A"], lastRoll := none,
      systemError := none }
    "B" (by decide) rfl (by decide) rfl rfl
  refine ⟨h.1, by rw [h.2.1]; rfl, ?_⟩
  rw [h.2.2 "vigor" rfl]
  rfl

/-! ## Branch parser — `src/js/parser/parseStory.js` and
`src/js/parser/branchContext.js`

`parseStory(raw)` splits the script on `/\r?\n/`, runs the line loop over
the parse context (finalizing the open branch at EOF), then builds the
branch map, rejecting duplicate ids and empty descriptions; the first
branch encountered becomes `start`.  The choice sub-parser it delegates to
(`parseChoice`) is passed in as the parameter `pc`, mirroring the module
boundary in the source. -/

structure BranchCtx where
  id : Option String
  title : String
  descriptionLines : List String
  choices : List StoryChoice
deriving Repr, DecidableEq

structure ParseCtx where
  current : Option BranchCtx
  descriptionActive : Bool
  branches : List BranchCtx
deriving Repr, DecidableEq

structure StoryBranch where
  id : String
  title : String
  description : String
  choices : List StoryChoice
deriving Repr, DecidableEq

structure Story where
  start : String
  branches : List (String × StoryBranch)
deriving Repr, DecidableEq

/-- JS `s.endsWith(suf)`. -/
def strEndsWith (s suf : String) : Bool := suf.data.reverse.isPrefixOf s.data.reverse

/-- `parseBracketValue` (`src/js/parser/valueParser.js`): unwrap an
optional `[...]` around a trimmed value. -/
def parseBracketValue (raw : String) : String :=
  let trimmed := strTrim raw
  if trimmed = "" then ""
  else if strStartsWith trimmed "[" && strEndsWith trimmed "]" then
    strTrim (String.mk (trimmed.data.drop 1).dropLast)
  else trimmed

/-- The exact `/\r?\n/` line splitter of `parseStory`. -/
def splitLinesAux : List Char → List Char → List String
  | [], acc => [String.mk acc.reverse]
  | '\n' :: rest, acc =>
      (match acc with
       | '\r' :: t => String.mk t.reverse
       | _ => String.mk acc.reverse) :: splitLinesAux rest []
  | c :: rest, acc => splitLinesAux rest (c :: acc)

def splitLines (raw : String) : List String := splitLinesAux raw.data []

/-- `extractDirectiveValue` (`src/js/parser/branchContext.js`, lines 50–61). -/
def extractDirectiveValue (raw label : String) (lineIndex : Nat)
    (allowEmpty : Bool) : Except String String :=
  match strSplitFirst raw ':' with
  | none =>
      .error (label ++ " definition on line " ++ toString (lineIndex + 1)
        ++ " is missing \":\".")
  | some (_, after) =>
      let value := strTrim after
      if ¬allowEmpty ∧ value = "" then
        .error (label ++ " definition on line " ++ toString (lineIndex + 1)
          ++ " is missing its value.")
      else .ok value

/-- `normalizeBranchId` (`src/js/parser/branchContext.js`, lines 68–74). -/
def normalizeBranchId (input : String) : Except String String :=
  let value := parseBracketValue input
  if value = "" then .error "Branch number cannot be empty."
  else .ok value

def createBranchContext (title : String) : BranchCtx :=
  { id := none, title := title, descriptionLines := [], choices := [] }

/-- `finalizeBranch` (`src/js/parser/branchContext.js`, lines 31–41). -/
def finalizeBranch (ctx : ParseCtx) : Except String ParseCtx :=
  match ctx.current with
  | none => .ok ctx
  | some current =>
      match current.id with
      | none =>
          .error ("Branch \"" ++ current.title ++ "\" is missing its Branch number.")
      | some i =>
          if i = "" then
            .error ("Branch \"" ++ current.title ++ "\" is missing its Branch number.")
          else
            .ok { current := none, descriptionActive := false,
                  branches := ctx.branches ++ [current] }

/-- The line loop of `parseStory` (`src/js/parser/parseStory.js`,
lines 28–95), finalizing the last open branch at end of input. -/
def parseLines (pc : String → String → Nat → Except String StoryChoice) :
    List String → Nat → ParseCtx → Except String (List BranchCtx)
  | [], _, ctx => do
      let ctx2 ← finalizeBranch ctx
      .ok ctx2.branches
  | rawLine :: rest, index, ctx => do
      let trimmed := strTrim rawLine
      if trimmed = "" then
        match ctx.current with
        | some current =>
            if ctx.descriptionActive then
              let current2 := { current with
                descriptionLines := current.descriptionLines ++ [""] }
              parseLines pc rest (index + 1) { ctx with current := some current2 }
            else parseLines pc rest (index + 1) ctx
        | none => parseLines pc rest (index + 1) ctx
      else if strStartsWith trimmed "#" then parseLines pc rest (index + 1) ctx
      else
        let lower := strToLower trimmed
        if strStartsWith lower "title:" then do
          let ctx2 ← finalizeBranch ctx
          let title ← extractDirectiveValue rawLine "Title" index false
          parseLines pc rest (index + 1)
            { ctx2 with current := some (createBranchContext title),
                        descriptionActive := false }
        else
          match ctx.current with
          | none =>
              .error ("Unexpected content before the first branch on line "
                ++ toString (index + 1) ++ ". Start branches with \"Title:\".")
          | some current =>
              if strStartsWith lower "branch:" then do
                let value ← extractDirectiveValue rawLine "Branch" index false
                let id ← normalizeBranchId value
                let current2 := { current with id := some id }
                parseLines pc rest (index + 1)
                  { ctx with current := some current2, descriptionActive := false }
              else if strStartsWith lower "description:" then do
                let firstLine ← extractDirectiveValue rawLine "Description" index false
                let current2 := { current with descriptionLines := [firstLine] }
                parseLines pc rest (index + 1)
                  { ctx with current := some current2, descriptionActive := true }
              else if strStartsWith lower "choice:" then
                match strSplitFirst rawLine ':' with
                | none =>
                    .error ("Choice definition on line " ++ toString (index + 1)
                      ++ " is missing content.")
                | some (_, after) => do
                    let payload := strTrim after
                    if payload = "" then
                      .error ("Choice definition on line " ++ toString (index + 1)
                        ++ " is missing content.")
                    else do
                      let choice ← pc (current.id.getD "") payload (index + 1)
                      let current2 := { current with
                        choices := current.choices ++ [choice] }
                      parseLines pc rest (index + 1)
                        { ctx with current := some current2,
                                   descriptionActive := false }
              else if ctx.descriptionActive then
                let current2 := { current with
                  descriptionLines := current.descriptionLines ++ [strTrim rawLine] }
                parseLines pc rest (index + 1) { ctx with current := some current2 }
              else
                .error ("Unrecognised directive on line " ++ toString (index + 1)
                  ++ ": \"" ++ rawLine ++ "\".")

def blookup (m : List (String × StoryBranch)) (k : String) : Option StoryBranch :=
  match m with
  | [] => none
  | p :: rest => if p.1 = k then some p.2 else blookup rest k

def bset (m : List (String × StoryBranch)) (k : String) (v : StoryBranch) :
    List (String × StoryBranch) :=
  match m with
  | [] => [(k, v)]
  | p :: rest => if p.1 = k then (k, v) :: rest else p :: bset rest k v

/-- The branch a finalized context becomes (`parseStory`, lines 114–128):
choices get ids `<branchId>:<index+1>`. -/
def mkBranch (ctx : BranchCtx) (id description : String) : StoryBranch :=
  { id := id, title := ctx.title, description := description,
    choices := ctx.choices.enum.map
      (fun p => { p.2 with id := id ++ ":" ++ toString (p.1 + 1) }) }

/-- The branch-map building loop of `parseStory` (lines 104–134): rejects
duplicate ids, rejects empty (joined, trimmed) descriptions, and keeps the
first id as `start`. -/
def buildLoop (bmap : List (String × StoryBranch)) (startId : Option String) :
    List BranchCtx → Except String Story
  | [] => .ok { start := startId.getD "", branches := bmap }
  | ctx :: rest =>
      let id := ctx.id.getD ""
      if (blookup bmap id).isSome then
        .error ("Duplicate branch id \"" ++ id ++ "\" encountered.")
      else
        let description := strTrim (String.intercalate "\n" ctx.descriptionLines)
        if description = "" then
          .error ("Branch \"" ++ id ++ "\" is missing a description.")
        else
          buildLoop (bset bmap id (mkBranch ctx id description))
            (match startId with
             | some s => some s
             | none => some id) rest

/-- Embedding of `parseStory` (`src/js/parser/parseStory.js`, lines 20–137),
parameterized by the choice sub-parser `pc`. -/
def parseStoryP (pc : String → String → Nat → Except String StoryChoice)
    (raw : String) : Except String Story :=
  match parseLines pc (splitLines raw) 0
      { current := none, descriptionActive := false, branches := [] } with
  | .error e => .error e
  | .ok ctxs =>
      if ctxs = [] then .error "No branches were discovered in the story file."
      else buildLoop [] none ctxs

theorem blookup_isSome_iff (m : List (String × StoryBranch)) (k : String) :
    (blookup m k).isSome = true ↔ k ∈ m.map Prod.fst := by
  induction m with
  | nil => simp [blookup]
  | cons p rest ih =>
      by_cases hp : p.1 = k
      · simp [blookup, hp]
      · simp [blookup, hp, ih, Ne.symm hp]

theorem keys_bset_of_not_mem (m : List (String × StoryBranch)) (k : String)
    (v : StoryBranch) (h : ¬ k ∈ m.map Prod.fst) :
    (bset m k v).map Prod.fst = m.map Prod.fst ++ [k] := by
  induction m with
  | nil => simp [bset]
  | cons p rest ih =>
      have hp : p.1 ≠ k := by
        intro hc
        exact h (by simp [hc])
      have hrest : ¬ k ∈ rest.map Prod.fst := by
        intro hc
        exact h (by simp [hc])
      simp [bset, hp, ih hrest]

theorem buildLoop_ok_char (ctxs : List BranchCtx) :
    ∀ (bmap : List (String × StoryBranch)) (startId : Option String)
      (story : Story), buildLoop bmap startId ctxs = .ok story →
      (ctxs.map (fun c => c.id.getD "")).Nodup ∧
      (∀ c ∈ ctxs, ¬ (c.id.getD "") ∈ bmap.map Prod.fst) ∧
      (∀ c ∈ ctxs, strTrim (String.intercalate "\n" c.descriptionLines) ≠ "") ∧
      story.start
        = (match startId with
           | some s => s
           | none =>
               match ctxs with
               | [] => ""
               | c :: _ => c.id.getD "") := by
  induction ctxs with
  | nil =>
      intro bmap startId story h
      simp only [buildLoop] at h
      have hs := Except.ok.inj h
      refine ⟨by simp, by simp, by simp, ?_⟩
      rw [← hs]
      cases startId <;> rfl
  | cons c rest ih =>
      intro bmap startId story h
      unfold buildLoop at h
      by_cases h1 : (blookup bmap (c.id.getD "")).isSome
      · simp [h1] at h
      · by_cases h2 : strTrim (String.intercalate "\n" c.descriptionLines) = ""
        · simp [h1, h2] at h
        · rw [if_neg (by simpa using h1), if_neg h2] at h
          obtain ⟨hnodup, hdisj, hdesc, hstart⟩ := ih _ _ _ h
          have hkeys : (bset bmap (c.id.getD "")
              (mkBranch c (c.id.getD "")
                (strTrim (String.intercalate "\n" c.descriptionLines)))).map Prod.fst
              = bmap.map Prod.fst ++ [c.id.getD ""] :=
            keys_bset_of_not_mem _ _ _
              (fun hc => h1 ((blookup_isSome_iff _ _).mpr hc))
          refine ⟨?_, ?_, ?_, ?_⟩
          · rw [List.map_cons, List.nodup_cons]
            constructor
            · intro hc
              obtain ⟨c2, hc2, hc2eq⟩ := List.mem_map.mp hc
              have := hdisj c2 hc2
              rw [hkeys] at this
              exact this (by simp [hc2eq])
            · exact hnodup
          · intro c2 hc2
            rcases List.mem_cons.mp hc2 with hc2 | hc2
            · subst hc2
              exact fun hc => h1 ((blookup_isSome_iff _ _).mpr hc)
            · intro hc
              have := hdisj c2 hc2
              rw [hkeys] at this
              exact this (by simp [hc])
          · intro c2 hc2
            rcases List.mem_cons.mp hc2 with hc2 | hc2
            · subst hc2
              exact h2
            · exact hdesc c2 hc2
          · rw [hstart]
            cases startId <;> rfl

theorem parseStoryP_reduce (pc : String → String → Nat → Except String StoryChoice)
    (raw : String) (ctxs : List BranchCtx)
    (hpl : parseLines pc (splitLines raw) 0
      { current := none, descriptionActive := false, branches := [] } = .ok ctxs) :
    parseStoryP pc raw
      = (if ctxs = [] then
          .error "No branches were discovered in the story file."
        else buildLoop [] none ctxs) := by
  unfold parseStoryP
  rw [hpl]

/-- C9: whenever the line phase succeeds, duplicate branch ids or a
finalized branch with an empty (joined, trimmed) description make
`parseStory` fail with an error, and on success the returned `start` is the
id of the first branch encountered — for every choice sub-parser `pc`. -/
theorem parseStory_spec (pc : String → String → Nat → Except String StoryChoice)
    (raw : String) :
    (∀ ctxs, parseLines pc (splitLines raw) 0
        { current := none, descriptionActive := false, branches := [] } = .ok ctxs →
      (¬ (ctxs.map (fun c => c.id.getD "")).Nodup ∨
        (∃ c ∈ ctxs, strTrim (String.intercalate "\n" c.descriptionLines) = "")) →
      ∃ e, parseStoryP pc raw = .error e) ∧
    (∀ story, parseStoryP pc raw = .ok story →
      ∃ c rest, parseLines pc (splitLines raw) 0
          { current := none, descriptionActive := false, branches := [] }
          = .ok (c :: rest) ∧
        (((c :: rest).map (fun x => x.id.getD "")).Nodup ∧
          (∀ x ∈ c :: rest,
            strTrim (String.intercalate "\n" x.descriptionLines) ≠ "") ∧
          story.start = c.id.getD "")) := by
  constructor
  · intro ctxs hpl hbad
    rw [parseStoryP_reduce pc raw ctxs hpl]
    by_cases hempty : ctxs = []
    · exact ⟨_, by rw [if_pos hempty]⟩
    · rw [if_neg hempty]
      cases hb : buildLoop [] none ctxs with
      | error e => exact ⟨e, rfl⟩
      | ok story =>
          obtain ⟨hnodup, _, hdesc, _⟩ := buildLoop_ok_char ctxs [] none story hb
          rcases hbad with hbad | ⟨c, hc, hcd⟩
          · exact absurd hnodup hbad
          · exact absurd hcd (hdesc c hc)
  · intro story h
    cases hpl : parseLines pc (splitLines raw) 0
        { current := none, descriptionActive := false, branches := [] } with
    | error e =>
        rw [show parseStoryP pc raw = .error e from by unfold parseStoryP; rw [hpl]] at h
        exact absurd h (by simp)
    | ok ctxs =>
        rw [parseStoryP_reduce pc raw ctxs hpl] at h
        by_cases hempty : ctxs = []
        · rw [if_pos hempty] at h
          exact absurd h (by simp)
        · rw [if_neg hempty] at h
          obtain ⟨c, rest, hcr⟩ :
              ∃ c rest, ctxs = c :: rest := by
            cases ctxs with
            | nil => exact absurd rfl hempty
            | cons c rest => exact ⟨c, rest, rfl⟩
          subst hcr
          obtain ⟨hnodup, _, hdesc, hstart⟩ := buildLoop_ok_char _ [] none story h
          exact ⟨c, rest, rfl, hnodup, hdesc, hstart⟩

/-- The story that the three-line witness script parses to. -/
def parseStory_spec_witness_story : Story :=
  { start := "b1"
    branches := [("b1",
      { id := "b1", title := "T", description := "d", choices := [] })] }

/-- Concrete check of `parseStory_spec`: a three-line script yields branch
`b1` as `start`, with a nonempty description and duplicate-free ids. -/
theorem parseStory_spec_witness :
    ∃ c rest, parseLines (fun _ _ _ => .ok
        { id := "", text := "", next := none, stats := [], inventory := [],
          roll := none, visibilityCondition := none, validCondition := none })
        (splitLines "Title: T\nBranch: b1\nDescription: d") 0
        { current := none, descriptionActive := false, branches := [] }
        = .ok (c :: rest) ∧
      (((c :: rest).map (fun x => x.id.getD "")).Nodup ∧
        (∀ x ∈ c :: rest,
          strTrim (String.intercalate "\n" x.descriptionLines) ≠ "") ∧
        (parseStory_spec_witness_story).start = c.id.getD "") :=
  (parseStory_spec (fun _ _ _ => .ok
      { id := "", text := "", next := none, stats := [], inventory := [],
        roll := none, visibilityCondition := none, validCondition := none })
    "Title: T\nBranch: b1\nDescription: d").2
    parseStory_spec_witness_story (by unfold parseStory_spec_witness_story; rfl)

/-! ## Snapshot restore — `src/js/state/snapshot.js` and
`StoryState.restoreSnapshot` (unnamed part)

`restoreFromSnapshot(snapshot, {statsManager, maxJournalEntries})` throws
on a non-object payload and otherwise rebuilds clean state fragments: the
stats start from the configured defaults and only configured keys are
overwritten (non-finite values keep the current/default value); inventory
keeps only trimmed nonempty names with finite counts `> 0`; the journal is
sanitized and clamped; the visited set keeps trimmed nonempty ids.  The
`StoryState.restoreSnapshot` wrapper installs the fragments, re-enters the
restored branch through `setCurrentBranch`, and nulls `lastRoll` and
`systemError`.  Snapshot field values of JS type `unknown` are embedded as
`Option Int` (`none` ≙ `Number(...)` not finite). -/

structure SnapshotPayload where
  stats : Option (List (String × Option Int))
  inventory : Option (List (String × Option Int))
  journal : Option (List String)
  visitedBranches : Option (List String)
  currentBranchId : Option String
deriving Repr, DecidableEq

structure RestoredState where
  stats : List (String × Int)
  inventory : List (String × Int)
  journal : List String
  visited : List String
  branchId : Option String
deriving Repr, DecidableEq

/-- `StatsManager.cloneDefaults` (non-finite defaults were already
normalized to `0` by `configure`). -/
def cloneDefaults (registry : List (String × Int)) : List (String × Int) :=
  registry.map (fun p => (p.1, p.2))

/-- One iteration of the stats-restoring loop of `restoreFromSnapshot`
(lines 34–43): unknown keys are skipped, a non-finite value (`none`) keeps
the current value. -/
def restoreStatsStep (acc : List (String × Int)) (p : String × Option Int) :
    List (String × Int) :=
  let key := strToLower (strTrim p.1)
  if key = "" then acc
  else if (alookup acc key).isNone then acc
  else
    match p.2 with
    | some v => aset acc key v
    | none => aset acc key ((alookup acc key).getD 0)

/-- The stats-restoring loop of `restoreFromSnapshot` (lines 32–44). -/
def restoreStats (registry : List (String × Int))
    (entries : Option (List (String × Option Int))) : List (String × Int) :=
  match entries with
  | none => cloneDefaults registry
  | some l => l.foldl restoreStatsStep (cloneDefaults registry)

/-- One iteration of the inventory-restoring loop of `restoreFromSnapshot`
(lines 48–56): only trimmed nonempty names with finite counts `> 0` are
kept. -/
def restoreInventoryStep (acc : List (String × Int)) (p : String × Option Int) :
    List (String × Int) :=
  let name := strTrim p.1
  if name = "" then acc
  else
    match p.2 with
    | some v => if 0 < v then aset acc name v else acc
    | none => acc

/-- The inventory-restoring loop of `restoreFromSnapshot` (lines 46–57). -/
def restoreInventory (entries : Option (List (String × Option Int))) :
    List (String × Int) :=
  match entries with
  | none => []
  | some l => l.foldl restoreInventoryStep []

/-- `normaliseJournal` (`src/js/state/journalManager.js`, lines 25–36). -/
def normaliseJournal (entries : Option (List String)) (maxEntries : Nat) :
    List String :=
  let filtered :=
    match entries with
    | some l => (l.filter (fun e => strTrim e ≠ "")).map strTrim
    | none => []
  if 0 < maxEntries ∧ maxEntries < filtered.length then
    filtered.drop (filtered.length - maxEntries)
  else filtered

/-- `restoreVisited` (`src/js/state/visitTracker.js` unnamed part). -/
def restoreVisited (entries : Option (List String)) : List String :=
  match entries with
  | none => []
  | some l =>
      l.foldl
        (fun acc e =>
          let id := strTrim e
          if id = "" then acc
          else if acc.contains id then acc else acc ++ [id])
        []

/-- `restoreFromSnapshot`'s handling of `snapshot.currentBranchId`
(lines 62–65). -/
def restoreBranchId (c : Option String) : Option String :=
  match c with
  | some s => if strTrim s = "" then none else some (strTrim s)
  | none => none

/-- The non-null body of `restoreFromSnapshot` (`src/js/state/snapshot.js`,
lines 27–70) followed by the `StoryState.restoreSnapshot` wrapper: install
the fragments, re-enter the branch via `setCurrentBranch`, and null
`lastRoll` and `systemError`. -/
def restoreSnapshotCore (registry : List (String × Int)) (maxJournalEntries : Nat)
    (st : EngineState) (p : SnapshotPayload) : EngineState :=
  let restored : RestoredState :=
    { stats := restoreStats registry p.stats
      inventory := restoreInventory p.inventory
      journal := normaliseJournal p.journal maxJournalEntries
      visited := restoreVisited p.visitedBranches
      branchId := restoreBranchId p.currentBranchId }
  let st1 := { st with stats := restored.stats, inventory := restored.inventory,
                       journal := restored.journal,
                       visitedBranches := restored.visited }
  let st2 := setCurrentBranch st1 restored.branchId
  { st2 with lastRoll := none, systemError := none }

/-- `restoreSnapshot` rejects exactly the non-object payloads
(`Invalid save snapshot payload.`) and otherwise never throws. -/
def restoreSnapshotChecked (registry : List (String × Int))
    (maxJournalEntries : Nat) (st : EngineState)
    (snapshot : Option SnapshotPayload) : Except String EngineState :=
  match snapshot with
  | none => .error "Invalid save snapshot payload."
  | some p => .ok (restoreSnapshotCore registry maxJournalEntries st p)

theorem alookup_isSome_iff (m : List (String × Int)) (k : String) :
    (alookup m k).isSome = true ↔ k ∈ m.map Prod.fst := by
  induction m with
  | nil => simp [alookup]
  | cons p rest ih =>
      by_cases hp : p.1 = k
      · simp [alookup, hp]
      · simp [alookup, hp, ih, Ne.symm hp]

theorem mem_of_alookup_eq_some (m : List (String × Int)) (k : String) (v : Int)
    (h : alookup m k = some v) : (k, v) ∈ m := by
  induction m with
  | nil => simp [alookup] at h
  | cons p rest ih =>
      by_cases hp : p.1 = k
      · have hb : p.2 = v := by
          simp [alookup, hp] at h
          exact h
        have hpkv : p = (k, v) := by
          rcases p with ⟨a, b⟩
          simp at hp hb
          simp [hp, hb]
        rw [← hpkv]
        exact List.mem_cons_self _ _
      · exact List.mem_cons_of_mem _ (ih (by simpa [alookup, hp] using h))

theorem alookup_self_of_nodup (m : List (String × Int))
    (hnd : (m.map Prod.fst).Nodup) :
    ∀ q ∈ m, alookup m q.1 = some q.2 := by
  induction m with
  | nil => simp
  | cons p rest ih =>
      intro q hq
      rcases List.mem_cons.mp hq with hq | hq
      · subst hq
        simp [alookup]
      · have hne : p.1 ≠ q.1 := by
          intro hc
          have hmem : q.1 ∈ rest.map Prod.fst := List.mem_map.mpr ⟨q, hq, rfl⟩
          rw [← hc] at hmem
          exact (List.nodup_cons.mp (by simpa using hnd)).1 hmem
        rw [show alookup (p :: rest) q.1
            = alookup rest q.1 from by simp [alookup, hne]]
        exact ih (List.nodup_cons.mp (by simpa using hnd)).2 q hq

theorem cloneDefaults_eq (registry : List (String × Int)) :
    cloneDefaults registry = registry := by
  simp [cloneDefaults]

theorem setCurrentBranch_keeps (st : EngineState) (b : Option String) :
    (setCurrentBranch st b).stats = st.stats ∧
    (setCurrentBranch st b).inventory = st.inventory ∧
    (setCurrentBranch st b).systemError = st.systemError := by
  unfold setCurrentBranch
  cases b with
  | none => exact ⟨rfl, rfl, rfl⟩
  | some s => by_cases h : strTrim s = "" <;> simp [h]

theorem restoreStatsStep_keys (acc : List (String × Int))
    (p : String × Option Int) :
    (restoreStatsStep acc p).map Prod.fst = acc.map Prod.fst := by
  unfold restoreStatsStep
  by_cases h1 : strToLower (strTrim p.1) = ""
  · simp [h1]
  · by_cases h2 : (alookup acc (strToLower (strTrim p.1))).isNone
    · simp [h1, h2]
    · have hmem : strToLower (strTrim p.1) ∈ acc.map Prod.fst := by
        apply (alookup_isSome_iff acc (strToLower (strTrim p.1))).mp
        simpa [Option.isNone_iff_eq_none, Option.isSome_iff_ne_none] using h2
      cases hp2 : p.2 with
      | some v => simp [h1, h2, keys_aset_of_mem acc _ _ hmem]
      | none => simp [h1, h2, keys_aset_of_mem acc _ _ hmem]

theorem restoreStats_keys (registry : List (String × Int))
    (entries : Option (List (String × Option Int))) :
    (restoreStats registry entries).map Prod.fst = registry.map Prod.fst := by
  cases entries with
  | none => simp [restoreStats, cloneDefaults_eq]
  | some l =>
      suffices hgen : ∀ acc : List (String × Int),
          acc.map Prod.fst = registry.map Prod.fst →
          (l.foldl restoreStatsStep acc).map Prod.fst = registry.map Prod.fst by
        exact hgen (cloneDefaults registry) (by rw [cloneDefaults_eq])
      induction l with
      | nil => intro acc hacc; simpa using hacc
      | cons e rest ih =>
          intro acc hacc
          simp only [List.foldl_cons]
          exact ih (restoreStatsStep acc e) ((restoreStatsStep_keys acc e).trans hacc)

theorem restoreStatsStep_mem (acc : List (String × Int)) (e : String × Option Int)
    (q : String × Int) (h : q ∈ restoreStatsStep acc e) :
    q ∈ acc ∨ (strToLower (strTrim e.1) = q.1 ∧ e.2 = some q.2) := by
  unfold restoreStatsStep at h
  by_cases h1 : strToLower (strTrim e.1) = ""
  · exact Or.inl (by simpa [h1] using h)
  · by_cases h2 : (alookup acc (strToLower (strTrim e.1))).isNone
    · exact Or.inl (by simpa [h1, h2] using h)
    · obtain ⟨w, hw⟩ := Option.isSome_iff_exists.mp
        (by simpa [Option.isNone_iff_eq_none, Option.isSome_iff_ne_none] using h2)
      cases he : e.2 with
      | some v =>
          rcases mem_aset acc _ _ q (by simpa [h1, h2, he] using h) with hq | hq
          · right
            subst hq
            exact ⟨rfl, by simp [he]⟩
          · exact Or.inl hq
      | none =>
          rcases mem_aset acc _ _ q (by simpa [h1, h2, he] using h) with hq | hq
          · refine Or.inl ?_
            rw [hq]
            have : (alookup acc (strToLower (strTrim e.1))).getD 0 = w := by
              rw [hw]
              rfl
            rw [this]
            exact mem_of_alookup_eq_some acc _ _ hw
          · exact Or.inl hq

theorem restoreStats_values (registry : List (String × Int))
    (entries : Option (List (String × Option Int)))
    (hreg : (registry.map Prod.fst).Nodup) :
    ∀ q ∈ restoreStats registry entries,
      alookup registry q.1 = some q.2 ∨
        ∃ e ∈ entries.getD [], strToLower (strTrim e.1) = q.1 ∧ e.2 = some q.2 := by
  cases entries with
  | none =>
      intro q hq
      rw [restoreStats, cloneDefaults_eq] at hq
      exact Or.inl (alookup_self_of_nodup registry hreg q hq)
  | some l =>
      have hgen : ∀ (l2 : List (String × Option Int)) (acc : List (String × Int)),
          (∀ e ∈ l2, e ∈ l) →
          (∀ q ∈ acc, alookup registry q.1 = some q.2 ∨
            ∃ e ∈ l, strToLower (strTrim e.1) = q.1 ∧ e.2 = some q.2) →
          ∀ q ∈ l2.foldl restoreStatsStep acc,
            alookup registry q.1 = some q.2 ∨
              ∃ e ∈ l, strToLower (strTrim e.1) = q.1 ∧ e.2 = some q.2 := by
        intro l2
        induction l2 with
        | nil =>
            intro acc _ hacc q hq
            exact hacc q (by simpa using hq)
        | cons e rest ih =>
            intro acc hsub hacc q hq
            simp only [List.foldl_cons] at hq
            refine ih (restoreStatsStep acc e)
              (fun x hx => hsub x (List.mem_cons_of_mem _ hx)) ?_ q hq
            intro q2 hq2
            rcases restoreStatsStep_mem acc e q2 hq2 with h | ⟨hk, hv⟩
            · exact hacc q2 h
            · exact Or.inr ⟨e, hsub e (List.mem_cons_self _ _), hk, hv⟩
      intro q hq
      rw [restoreStats] at hq
      refine hgen l (cloneDefaults registry) (fun _ hx => hx) ?_ q hq
      intro q2 hq2
      rw [cloneDefaults_eq] at hq2
      exact Or.inl (alookup_self_of_nodup registry hreg q2 hq2)

theorem restoreInventoryStep_mem (acc : List (String × Int))
    (e : String × Option Int) (q : String × Int)
    (h : q ∈ restoreInventoryStep acc e) :
    q ∈ acc ∨ (q.1 = strTrim e.1 ∧ q.1 ≠ "" ∧ 0 < q.2) := by
  unfold restoreInventoryStep at h
  by_cases h1 : strTrim e.1 = ""
  · exact Or.inl (by simpa [h1] using h)
  · cases he : e.2 with
    | none => exact Or.inl (by simpa [h1, he] using h)
    | some v =>
        by_cases hv : 0 < v
        · rcases mem_aset acc _ _ q (by simpa [h1, he, hv] using h) with hq | hq
          · refine Or.inr ?_
            rw [hq]
            exact ⟨rfl, h1, hv⟩
          · exact Or.inl hq
        · exact Or.inl (by simpa [h1, he, hv] using h)

theorem restoreInventory_values (entries : Option (List (String × Option Int))) :
    ∀ q ∈ restoreInventory entries,
      (∃ raw0, q.1 = strTrim raw0) ∧ q.1 ≠ "" ∧ 0 < q.2 := by
  cases entries with
  | none => simp [restoreInventory]
  | some l =>
      have hgen : ∀ (l2 : List (String × Option Int)) (acc : List (String × Int)),
          (∀ q ∈ acc, (∃ raw0, q.1 = strTrim raw0) ∧ q.1 ≠ "" ∧ 0 < q.2) →
          ∀ q ∈ l2.foldl restoreInventoryStep acc,
            (∃ raw0, q.1 = strTrim raw0) ∧ q.1 ≠ "" ∧ 0 < q.2 := by
        intro l2
        induction l2 with
        | nil =>
            intro acc hacc q hq
            exact hacc q (by simpa using hq)
        | cons e rest ih =>
            intro acc hacc q hq
            simp only [List.foldl_cons] at hq
            refine ih (restoreInventoryStep acc e) ?_ q hq
            intro q2 hq2
            rcases restoreInventoryStep_mem acc e q2 hq2 with h | ⟨hk, hne, hv⟩
            · exact hacc q2 h
            · exact ⟨⟨e.1, hk⟩, hne, hv⟩
      intro q hq
      rw [restoreInventory] at hq
      exact hgen l [] (by simp) q hq

/-- C10: restoring any accepted snapshot nulls `lastRoll` and
`systemError`; the restored stats map carries exactly keys of the
configured defaults, each value being either the configured default or a
finite value the snapshot supplied for that key (so unknown keys are
dropped and non-finite values fall back); and the restored inventory holds
only trimmed nonempty item names with counts strictly greater than `0`. -/
theorem restoreSnapshot_spec (registry : List (String × Int))
    (maxJournalEntries : Nat) (st : EngineState) (p : SnapshotPayload)
    (hreg : (registry.map Prod.fst).Nodup) :
    (restoreSnapshotCore registry maxJournalEntries st p).lastRoll = none ∧
    (restoreSnapshotCore registry maxJournalEntries st p).systemError = none ∧
    (restoreSnapshotCore registry maxJournalEntries st p).stats.map Prod.fst
      = registry.map Prod.fst ∧
    (∀ q ∈ (restoreSnapshotCore registry maxJournalEntries st p).stats,
        alookup registry q.1 = some q.2 ∨
          ∃ e ∈ p.stats.getD [],
            strToLower (strTrim e.1) = q.1 ∧ e.2 = some q.2) ∧
    (∀ q ∈ (restoreSnapshotCore registry maxJournalEntries st p).inventory,
        (∃ raw0, q.1 = strTrim raw0) ∧ q.1 ≠ "" ∧ 0 < q.2) := by
  have hstats : (restoreSnapshotCore registry maxJournalEntries st p).stats
      = restoreStats registry p.stats := by
    unfold restoreSnapshotCore
    exact (setCurrentBranch_keeps _ _).1
  have hinv : (restoreSnapshotCore registry maxJournalEntries st p).inventory
      = restoreInventory p.inventory := by
    unfold restoreSnapshotCore
    exact (setCurrentBranch_keeps _ _).2.1
  refine ⟨rfl, rfl, ?_, ?_, ?_⟩
  · rw [hstats]
    exact restoreStats_keys registry p.stats
  · rw [hstats]
    exact restoreStats_values registry p.stats hreg
  · rw [hinv]
    exact restoreInventory_values p.inventory

/-- Concrete check of `restoreSnapshot_spec`: a snapshot carrying the
unknown stat `vigor`, an untrimmed item name and a zero count restores to
only the configured `luck` key and a positive trimmed inventory. -/
theorem restoreSnapshot_spec_witness :
    (restoreSnapshotCore [("luck", 5)] 8
      { currentBranchId := none, stats := [], inventory := [], journal := [],
        visitedBranches := [], lastRoll := none, systemError := none }
      { stats := some [("Luck", some 7), ("vigor", some 3)],
        inventory := some [(" rope ", some 2), ("x", some 0)],
        journal := some [], visitedBranches := some ["A"],
        currentBranchId := some " A " }).lastRoll = none ∧
    (restoreSnapshotCore [("luck", 5)] 8
      { currentBranchId := none, stats := [], inventory := [], journal := [],
        visitedBranches := [], lastRoll := none, systemError := none }
      { stats := some [("Luck", some 7), ("vigor", some 3)],
        inventory := some [(" rope ", some 2), ("x", some 0)],
        journal := some [], visitedBranches := some ["A"],
        currentBranchId := some " A " }).stats.map Prod.fst = ["luck"] ∧
    (∀ q ∈ (restoreSnapshotCore [("luck", 5)] 8
      { currentBranchId := none, stats := [], inventory := [], journal := [],
        visitedBranches := [], lastRoll := none, systemError := none }
      { stats := some [("Luck", some 7), ("vigor", some 3)],
        inventory := some [(" rope ", some 2), ("x", some 0)],
        journal := some [], visitedBranches := some ["A"],
        currentBranchId := some " A " }).inventory, q.1 ≠ "" ∧ 0 < q.2) := by
  have h := restoreSnapshot_spec [("luck", 5)] 8
    { currentBranchId := none, stats := [], inventory := [], journal := [],
      visitedBranches := [], lastRoll := none, systemError := none }
    { stats := some [("Luck", some 7), ("vigor", some 3)],
      inventory := some [(" rope ", some 2), ("x", some 0)],
      journal := some [], visitedBranches := some ["A"],
      currentBranchId := some " A " } (by decide)
  refine ⟨h.1, by rw [h.2.2.1]; rfl, ?_⟩
  intro q hq
  exact (h.2.2.2.2 q hq).2
